import Mathlib

/-!
Shallow embedding of the GdScript2All parser core (src/src/Parser.py).

The Python parser is a recursive-descent parser over a token stream.  Every
expression-grammar rule is a two-phase generator: the first resumption
computes the inferred type (consuming the tokens of the production head),
the second resumption performs the backend emissions.  We model a producer
as a record holding the inferred type, the parser state after the first
resumption, and the second resumption as a state transformer (it may both
emit and consume further tokens, exactly as the Python generators do).

External collaborators that are not part of src/ are modelled as follows:
the token stream (Tokenizer.py) is a list of kind/value tokens, the type
registry (godot_types) is an association list passed as a parameter, and
the emission backend is a write-only trace of instructions; producers that
the parser hands to the backend are driven to completion immediately, in
program order, which is the behaviour the specification ascribes to the
synchronous backends.  Python dictionaries become association lists and
mutation becomes state threading.  Loops carry a fuel parameter; the
parser's doWhile progress guard (token-object identity) is modelled by the
position counter `pos`, which advances exactly when a fresh token is pulled
from the stream (at end of input Python mutates the current token object in
place, so identity - and here `pos` - does not change).
-/

namespace GdScript

/-- Token produced by the external tokenizer: a kind and a text value. -/
structure Token where
  type : String
  value : String
deriving DecidableEq, Repr

/-- Sentinel the Python parser writes into the current token at end of input. -/
def eofToken : Token := ⟨"EOF", "EOF"⟩

/-- Registry entry: the three name-keyed tables of a class.  Method return
types may be absent (the parser stores None for a method whose return type
could not be inferred), hence the Option. -/
structure ClassData where
  members : List (String × String)
  methods : List (String × Option String)
  constants : List (String × String)
deriving DecidableEq, Repr

/-- Empty class data, the ClassData() default constructor. -/
def ClassData.empty : ClassData := ⟨[], [], []⟩

instance : Inhabited ClassData := ⟨ClassData.empty⟩

/-- Modelled from the spec: ClassData.py is not under src/.  The spec
prescribes that the script's class data starts as an owned, independently
mutable value copy of the base class's registry entry ("model this as an
owned, independently-mutable snapshot (value copy), never a shared/aliased
reference").  In the embedding a value copy is the identity on the value. -/
def copyClassData (cd : ClassData) : ClassData :=
  ⟨cd.members, cd.methods, cd.constants⟩

/-- The external godot_types table: class name to class data. -/
abbrev Registry := List (String × ClassData)

/-- Python dict lookup (dict.get with default None). -/
def lookupStr {α : Type} : List (String × α) → String → Option α
  | [], _ => none
  | (k', v) :: rest, k => if k' = k then some v else lookupStr rest k

/-- Python dict assignment: replace the binding if present, else append. -/
def insertStr {α : Type} : List (String × α) → String → α → List (String × α)
  | [], k, v => [(k, v)]
  | (k', v') :: rest, k, v =>
    if k' = k then (k, v) :: rest else (k', v') :: insertStr rest k v

/-- Python `a or b` on optional strings: None and the empty string are falsy. -/
def pyOr (a b : Option String) : Option String :=
  match a with
  | some s => if s = "" then b else some s
  | none => b

/-- Python `a or d` where d is a (truthy) plain string. -/
def pyOrStr (a : Option String) (d : String) : String :=
  match a with
  | some s => if s = "" then d else s
  | none => d

/-- Python truthiness of an optional string. -/
def pyTruthy : Option String → Bool
  | some s => s ≠ ""
  | none => false

/-- Backend emission instructions, one constructor per transpiler call the
parser makes.  Producer arguments are driven immediately by the backend, so
their own emissions follow the instruction in the trace. -/
inductive Emit where
  | define_class (name base : String) (tool : Bool)
  | end_script
  | line_comment (text : String)
  | multiline_comment (text : String)
  | enumE (name text : String)
  | annotationE (name params target : String)
  | declare_property (ty name : String) (isConst isStatic : Bool)
  | declare_variable (ty name : String)
  | define_method (name : String) (params : List (String × String))
      (ret : Option String) (isStatic : Bool)
  | define_signal (name : String) (params : List (String × String))
  | upScope
  | downScope
  | addLayer
  | ifE
  | elifE
  | elseE
  | whileE
  | forE (name ty : String)
  | matchE
  | matchCase (isDefault hasWhen : Bool)
  | returnE
  | breakE
  | continueE
  | end_statement
  | literalInt (n : Nat)
  | literalFloat (raw : String)
  | literalBool (b : Bool)
  | literalStr (sv : String)
  | operator (op : String)
  | ternaryE
  | subexpressionE
  | create_array
  | create_dict
  | callE (name : String) (argc : Nat)
  | constructorE (name : String) (argc : Nat)
  | referenceE (name : String)
  | variableE (name : String)
  | singletonE (name : String)
  | constantE (name : String)
  | thisE
  | subscriptionE
  | assignmentE (onready : Option String)
  | raw (text : String)
deriving DecidableEq, Repr

/-- Parser state: the current token and the not-yet-pulled remainder of the
stream, the position counter (models token-object identity for the doWhile
progress guard), the indentation level, the script class data fields, the
flat per-method locals table and the emission trace. -/
structure PState where
  current : Token
  rest : List Token
  pos : Nat
  level : Nat
  is_tool : Bool
  base_class : String
  class_name : String
  classData : ClassData
  locals : List (String × String)
  out : List Emit
deriving DecidableEq, Repr

/-- Initial parser state over a token stream (the constructor's first
advance pulls the first token). -/
def initState (toks : List Token) : PState :=
  match toks with
  | [] => ⟨eofToken, [], 0, 0, false, "", "", ClassData.empty, [], []⟩
  | t :: ts => ⟨t, ts, 1, 0, false, "", "", ClassData.empty, [], []⟩

/-- Parser.advance: pull the next token; at end of input the current token
is overwritten in place with the EOF sentinel (same object, so `pos` does
not move). -/
def advance (s : PState) : PState :=
  match s.rest with
  | [] => { s with current := eofToken }
  | t :: ts => { s with current := t, rest := ts, pos := s.pos + 1 }

/-- Parser.consume: return the current token's value and advance. -/
def consume (s : PState) : String × PState :=
  (s.current.value, advance s)

/-- Parser.expect: consume the current token iff its value matches. -/
def expect (s : PState) (tok : String) : Bool × PState :=
  if s.current.value = tok then (true, advance s) else (false, s)

/-- Append one emission instruction to the trace. -/
def emit (e : Emit) (s : PState) : PState :=
  { s with out := s.out ++ [e] }

/-- Python `self.out += text`: raw text appended to the output buffer; an
empty append leaves the rendered output unchanged. -/
def addText (t : String) (s : PState) : PState :=
  if t = "" then s else emit (Emit.raw t) s

/-- A string made of n newline characters, Python `'\n' * n`. -/
def nlChars (n : Nat) : String :=
  String.mk (List.replicate n '\x0A')

/-- Prefix test on character lists (structural, kernel-reducible). -/
def isPrefixList : List Char → List Char → Bool
  | [], _ => true
  | _ :: _, [] => false
  | p :: ps, c :: cs => p = c && isPrefixList ps cs

/-- Replacement loop for strReplace, fueled by the text length (each step
consumes at least one character since the patterns used are non-empty). -/
def replaceCharsAux (pat rep : List Char) : Nat → List Char → List Char
  | 0, l => l
  | _+1, [] => []
  | n+1, c :: cs =>
    if isPrefixList pat (c :: cs) then
      rep ++ replaceCharsAux pat rep n (List.drop pat.length (c :: cs))
    else c :: replaceCharsAux pat rep n cs

/-- Python str.replace (all non-overlapping occurrences, left to right),
implemented structurally so that concrete runs reduce in the kernel. -/
def strReplace (s pat rep : String) : String :=
  String.mk (replaceCharsAux pat.data rep.data s.data.length s.data)

/-- Python `pat in s` on character lists. -/
def containsList (pat : List Char) : List Char → Bool
  | [] => decide (pat = [])
  | c :: cs => isPrefixList pat (c :: cs) || containsList pat cs

/-- Python int() on the digit strings carried by line-break tokens
(tokenizer contract: the value is a digit string). -/
def parseIndent (s : String) : Nat :=
  s.data.foldl (fun acc c => acc * 10 + (c.toNat - 48)) 0

/-- Separator join, Python str.join as used by consumeUntil. -/
def joinSep (sep : String) : List String → String
  | [] => ""
  | [x] => x
  | x :: xs => x ++ sep ++ joinSep sep xs

/-- Parser.parseType: consume a type spelling; `Array[<T>]` becomes `<T>[]`. -/
def parseType (s : PState) : String × PState :=
  let (ty, s) := consume s
  if ty = "Array" then
    let (b, s) := expect s "["
    if b then
      let (elem, s) := consume s
      let (_, s) := expect s "]"
      (elem ++ "[]", s)
    else (ty, s)
  else (ty, s)

/-- Loop body of Parser.consumeUntil, with the doWhile progress guard:
`last` is the position at the previous condition check. -/
def consumeUntilAux : Nat → String → Nat → List String → PState → (List String × PState)
  | 0, _, _, acc, s => (acc, s)
  | f+1, tok, last, acc, s =>
    if s.pos = last then (acc, s)
    else if s.current.value = tok ∨ s.current.type = tok then (acc, s)
    else
      let (v, s') := consume s
      consumeUntilAux f tok s.pos (acc ++ [v]) s'

/-- Parser.consumeUntil: collect token values up to (excluding) a token
matching by value or kind, joined by the separator. -/
def consumeUntil (fuel : Nat) (tok sep : String) (s : PState) : String × PState :=
  let (l, s') := consumeUntilAux fuel tok (s.pos + 1) [] s
  (joinSep sep l, s')

/-- Scope-close run inside Parser.endline: `range(level - lvl)` iterations;
on the first one, addBreak mode emits a newline and a break statement. -/
def downScopesAux (addBreak : Bool) : Nat → Bool → PState → PState
  | 0, _, s => s
  | n+1, first, s =>
    let s := if addBreak ∧ first then emit Emit.breakE (addText "\x0A" s) else s
    let s := { s with level := s.level - 1 }
    let s := emit Emit.downScope s
    downScopesAux addBreak n false s

/-- Close scopes down to the indentation recorded on the last line break;
`none` models Python's lvl = -1 (no line break seen yet). -/
def applyDownscopes (addBreak : Bool) (lvl : Option Nat) (s : PState) : PState :=
  match lvl with
  | none => s
  | some l => downScopesAux addBreak (s.level - l) true s

/-- Loop body of Parser.endline: consume line breaks, comments and stray
long strings; remember the last indentation; emit a comment immediately
when the following token is a line break, otherwise close scopes first
(lazy, content-gated scope closing). -/
def endlineLoop : Nat → Bool → Nat → Option Nat → Nat → PState → (Option Nat × Nat × PState)
  | 0, _, _, lvl, j, s => (lvl, j, s)
  | f+1, addBreak, last, lvl, j, s =>
    if s.pos = last then (lvl, j, s)
    else if s.current.type = "LINE_END" ∨ s.current.type = "COMMENT" ∨
        s.current.type = "LONG_STRING" then
      if s.current.type = "LINE_END" then
        let (v, s₁) := consume s
        let lvl' := some (parseIndent v)
        let j' := j + 1
        if s₁.current.type = "LINE_END" then
          endlineLoop f addBreak s.pos lvl' j' s₁
        else
          let s₂ := applyDownscopes addBreak lvl' s₁
          let s₃ := addText (nlChars j') s₂
          endlineLoop f addBreak s.pos lvl' 0 s₃
      else
        let isLine := s.current.type = "COMMENT"
        let (content, s₁) := consume s
        let doEmit := fun (st : PState) =>
          emit (if isLine then Emit.line_comment content
                else Emit.multiline_comment content) st
        if s₁.current.type = "LINE_END" then
          endlineLoop f addBreak s.pos lvl j (doEmit s₁)
        else
          let s₂ := applyDownscopes addBreak lvl s₁
          let s₃ := doEmit s₂
          let s₄ := addText (nlChars j) s₃
          endlineLoop f addBreak s.pos lvl 0 s₄
    else (lvl, j, s)

/-- Parser.endline: swallow line breaks and comments, lazily closing scopes
when real code appears at a shallower indentation, and flush blank lines. -/
def endline (fuel : Nat) (addBreak : Bool) (s : PState) : PState :=
  let r := endlineLoop fuel addBreak (s.pos + 1) none 0 s
  addText (nlChars r.2.1) r.2.2

/-- Declaration flags (the DECL_FLAGS IntFlag); member declarations set
`property` plus at most one of constant / static / onready. -/
structure DeclFlags where
  static : Bool
  constant : Bool
  property : Bool
  onready : Bool
deriving DecidableEq, Repr

/-- No flags, DECL_FLAGS.none. -/
def DeclFlags.none : DeclFlags := ⟨false, false, false, false⟩

/-- Constant statement flags, DECL_FLAGS.constant alone. -/
def DeclFlags.constantOnly : DeclFlags := ⟨false, true, false, false⟩

/-- Flags for a class member: property plus the first set one of
constant / static / onready (the Python if-chain). -/
def memberFlags (isStatic isConst onready : Bool) : DeclFlags :=
  ⟨!isConst && isStatic, isConst, true, !isConst && !isStatic && onready⟩

/-- The synthetic global-scope registry entry (the registry contract
guarantees it is present; a missing entry would raise KeyError in Python). -/
def globalScope (g : Registry) : ClassData :=
  (lookupStr g "@GlobalScope").getD ClassData.empty

end GdScript

namespace GdScript

/-- Check of `name in ref.godot_types[type].constants` for an optional
receiver type.  Python evaluates this only behind a truthiness guard on the
type; a truthy type absent from the registry would raise KeyError there —
the registry contract rules that out, and the embedding treats it as a
missed lookup. -/
def constantsHas (g : Registry) (ty : Option String) (name : String) : Bool :=
  match ty with
  | some t =>
    match lookupStr g t with
    | some cd => (lookupStr cd.constants name).isSome
    | none => false
  | none => false

/-- The constant's type from the receiver class's constant table. -/
def constantsGet (g : Registry) (ty : Option String) (name : String) : Option String :=
  match ty with
  | some t =>
    match lookupStr g t with
    | some cd => lookupStr cd.constants name
    | none => none
  | none => none

/-- Python `'[]' in t`. -/
def bracketsIn (t : String) : Bool :=
  containsList ("[]".data) t.data

/-- Result of the first resumption of an expression-grammar producer: the
inferred type, the parser state after the first resumption, and the second
resumption as a state transformer.  `ks` carries the pending second
resumptions of eagerly collected call arguments. -/
structure ERes where
  ty : Option String
  st : PState
  k : PState → PState
  ks : List (PState → PState)

/-- Call tags for the mutually recursive expression-grammar rules of
Parser.py; one interpreter function keeps the recursion structural on the
fuel so that concrete runs reduce in the kernel. -/
inductive ECall where
  | expr
  | tern
  | boolE
  | arith
  | chain
  | val
  | text
  | textTail (isThis : Bool) (name : String)
  | callT (name : String) (ct : Option String)
  | refT (ty : Option String)
  | subT (ty : Option String)
  | assignT (onready : Option String)
  | argsT
  | arrT
  | dictT

/-- Interpreter for the expression grammar of Parser.py.  Each tag mirrors
one Python generator: code before the first yield builds `ty` and `st`, the
code between the yields becomes `k`.  Producers handed to the backend are
driven inside `k` in program order.  `arrT` and `dictT` are the element
loops of array and dictionary literals (they run during the second
resumption and so emit into `st`); `argsT` is the eager call-argument
tuple, whose element producers' second resumptions are returned in `ks`. -/
def erun (g : Registry) : Nat → ECall → PState → ERes
  | 0, _, s => ⟨none, s, id, []⟩
  | f+1, c, s =>
    match c with
    | .expr =>
      let r := erun g f .tern s
      let e1 := expect r.st "as"
      if e1.1 then
        let p := parseType e1.2
        ⟨some (pyOrStr (some p.1) "Variant"), p.2, r.k, []⟩
      else
        ⟨some (pyOrStr r.ty "Variant"), e1.2, r.k, []⟩
    | .tern =>
      let vt := erun g f .boolE s
      ⟨vt.ty, vt.st, fun s' =>
        let e1 := expect s' "if"
        if e1.1 then
          let s₂ := emit Emit.ternaryE e1.2
          let cond := erun g f .boolE s₂
          let s₃ := cond.k cond.st
          let s₄ := (expect s₃ "else").2
          let vf := erun g f .tern s₄
          vf.k (vt.k vf.st)
        else vt.k e1.2, []⟩
    | .boolE =>
      let a1 := erun g f .arith s
      if a1.st.current.type = "COMPARISON" then
        let op := (consume a1.st).1
        let a2 := erun g f .boolE (consume a1.st).2
        ⟨some "bool", a2.st, fun s' => a2.k (emit (Emit.operator op) (a1.k s')), []⟩
      else ⟨a1.ty, a1.st, a1.k, []⟩
    | .arith =>
      if s.current.type = "UNARY" then
        let op := (consume s).1
        let ar := erun g f .chain (consume s).2
        ⟨ar.ty, ar.st, fun s' => ar.k (emit (Emit.operator op) s'), []⟩
      else
        let ar := erun g f .chain s
        ⟨ar.ty, ar.st, ar.k, []⟩
    | .chain =>
      let v1 := erun g f .val s
      if v1.st.current.type = "ARITHMETIC" then
        let op := (consume v1.st).1
        let v2 := erun g f .chain (consume v1.st).2
        ⟨v2.ty, v2.st, fun s' => v2.k (emit (Emit.operator op) (v1.k s')), []⟩
      else ⟨v1.ty, v1.st, v1.k, []⟩
    | .val =>
      if s.current.type = "INT" then
        ⟨some "int", (consume s).2, fun s' =>
          emit (Emit.literalInt (parseIndent (consume s).1)) s', []⟩
      else if s.current.type = "FLOAT" then
        ⟨some "float", (consume s).2, fun s' =>
          emit (Emit.literalFloat (consume s).1) s', []⟩
      else if s.current.value = "true" ∨ s.current.value = "false" then
        ⟨some "bool", (consume s).2, fun s' =>
          emit (Emit.literalBool ((consume s).1 = "true")) s', []⟩
      else if s.current.type = "LONG_STRING" then
        ⟨some "string", (consume s).2, fun s' =>
          emit (Emit.literalStr (consume s).1) s', []⟩
      else if s.current.type = "STRING" then
        ⟨some "string", (consume s).2, fun s' =>
          emit (Emit.literalStr (consume s).1) s', []⟩
      else if s.current.value = "[" then
        ⟨some "Array", advance s, fun s' =>
          (erun g f .arrT (emit Emit.create_array s')).st, []⟩
      else if s.current.value = "\x7b" then
        ⟨some "Dictionary", advance s, fun s' =>
          (erun g f .dictT (emit Emit.create_dict s')).st, []⟩
      else if s.current.value = "(" then
        let e := erun g f .expr (advance s)
        ⟨e.ty, e.st, fun s' => (expect (e.k (emit Emit.subexpressionE s')) ")").2, []⟩
      else if s.current.value = "$" then
        ⟨some "Node", (consume (advance s)).2, fun s' =>
          emit (Emit.literalStr (consume (advance s)).1)
            (emit (Emit.callE "get_node" 1) s'), []⟩
      else if s.current.value = "%" then
        ⟨some "Node", (consume (advance s)).2, fun s' =>
          emit (Emit.literalStr ("%" ++ (consume (advance s)).1))
            (emit (Emit.callE "get_node" 1) s'), []⟩
      else if s.current.type = "TEXT" then
        erun g f .text s
      else ⟨none, s, id, []⟩
    | .text =>
      let n0 := consume s
      let tmp : Bool × PState × String :=
        if n0.1 = "self" then
          (let e1 := expect n0.2 "."
           if e1.1 then (true, (consume e1.2).2, (consume e1.2).1)
           else (false, e1.2, n0.1))
        else (false, n0.2, n0.1)
      erun g f (.textTail tmp.1 tmp.2.2) tmp.2.1
    | .textTail isThis name =>
      let isSingleton := (lookupStr g name).isSome
      let ty := pyOr (lookupStr s.classData.members name)
        (pyOr (lookupStr s.locals name)
          (pyOr (lookupStr (globalScope g).constants name)
            (if isSingleton then some name else none)))
      let c1 := expect s "("
      if c1.1 then
        let cr := erun g f (.callT name none) c1.2
        ⟨cr.ty, cr.st, fun s' => cr.k (if isThis then emit Emit.thisE s' else s'), []⟩
      else
        let c2 := expect s "."
        if c2.1 then
          let r := erun g f (.refT ty) c2.2
          ⟨r.ty, r.st, fun s' =>
            let s' := if isThis then emit Emit.thisE s' else s'
            r.k (if isSingleton then emit (Emit.singletonE name) s'
              else emit (Emit.variableE name) s'), []⟩
        else
          let c3 := expect s "["
          if c3.1 then
            let sb := erun g f (.subT ty) c3.2
            ⟨sb.ty, sb.st, fun s' =>
              let s' := if isThis then emit Emit.thisE s' else s'
              sb.k (emit (Emit.variableE name) s'), []⟩
          else
            ⟨ty, s, fun s' =>
              let s' := if isThis then emit Emit.thisE s' else s'
              emit (Emit.variableE name) s', []⟩
    | .callT name ct =>
      let isConstructor := (lookupStr g name).isSome
      let ty := pyOr (if isConstructor then some name else none)
        (pyOr (lookupStr s.classData.methods name).join
          (match ct with
           | some t =>
             if (lookupStr g t).isSome then
               (lookupStr ((lookupStr g t).getD ClassData.empty).methods name).join
             else if t = "" then (lookupStr (globalScope g).methods name).join
             else none
           | none => (lookupStr (globalScope g).methods name).join))
      let a := erun g f .argsT s
      let emitCall := fun (s' : PState) =>
        a.ks.foldl (fun acc k => k acc)
          (emit (if isConstructor then Emit.constructorE name a.ks.length
            else Emit.callE name a.ks.length) s')
      let c1 := expect a.st "."
      if c1.1 then
        let r := erun g f (.refT ty) c1.2
        ⟨r.ty, r.st, fun s' => r.k (emitCall s'), []⟩
      else
        let c2 := expect a.st "["
        if c2.1 then
          let sb := erun g f (.subT ty) c2.2
          ⟨sb.ty, sb.st, fun s' => sb.k (emitCall s'), []⟩
        else ⟨ty, a.st, emitCall, []⟩
    | .refT ty =>
      let name := (consume s).1
      let s₁ := (consume s).2
      let member_type : Option String :=
        match ty with
        | some t =>
          (match lookupStr g t with
           | some cd => lookupStr cd.members name
           | none => none)
        | none => none
      let c1 := expect s₁ "("
      if c1.1 then
        let cr := erun g f (.callT name ty) c1.2
        ⟨cr.ty, cr.st, fun s' => cr.k (emit (Emit.referenceE "") s'), []⟩
      else
        let c2 := expect s₁ "."
        if c2.1 then
          let r := erun g f (.refT member_type) c2.2
          ⟨r.ty, r.st, fun s' => r.k (emit (Emit.referenceE name) s'), []⟩
        else
          let c3 := expect s₁ "["
          if c3.1 then
            let sb := erun g f (.subT ty) c3.2
            ⟨sb.ty, sb.st, fun s' => sb.k (emit (Emit.referenceE name) s'), []⟩
          else if pyTruthy ty && constantsHas g ty name then
            ⟨constantsGet g ty name, s₁, fun s' => emit (Emit.constantE name) s', []⟩
          else
            ⟨member_type, s₁, fun s' => emit (Emit.referenceE name) s', []⟩
    | .subT ty0 =>
      let ty : Option String :=
        match ty0 with
        | some t => if t ≠ "" ∧ bracketsIn t then some (strReplace t "[]" "") else none
        | none => none
      let key := erun g f .expr s
      let s₁ := (expect key.st "]").2
      let c1 := expect s₁ "("
      if c1.1 then
        let cr := erun g f (.callT "" ty) c1.2
        ⟨cr.ty, cr.st, cr.k, []⟩
      else
        let c2 := expect s₁ "."
        if c2.1 then
          let r := erun g f (.refT ty) c2.2
          ⟨r.ty, r.st, fun s' => key.k (emit Emit.subscriptionE s'), []⟩
        else
          ⟨ty, s₁, fun s' => key.k (emit Emit.subscriptionE s'), []⟩
    | .assignT onr =>
      let e := erun g f .expr s
      ⟨e.ty, e.st, fun s' => e.k (emit (Emit.assignmentE onr) s'), []⟩
    | .argsT =>
      let e0 := expect s ")"
      if e0.1 then ⟨none, e0.2, id, []⟩
      else
        let e := erun g f .expr e0.2
        let rest := erun g f .argsT (expect e.st ",").2
        ⟨none, rest.st, id, e.k :: rest.ks⟩
    | .arrT =>
      let e0 := expect s "]"
      if e0.1 then ⟨none, e0.2, id, []⟩
      else
        let e := erun g f .expr e0.2
        erun g f .arrT (e.k (expect e.st ",").2)
    | .dictT =>
      let e0 := expect s "\x7d"
      if e0.1 then ⟨none, e0.2, id, []⟩
      else
        let kr := erun g f .expr e0.2
        let vr := erun g f .expr (expect kr.st ":").2
        erun g f .dictT (vr.k (kr.k (expect vr.st ",").2))

/-- Parser.expression: ternary chain plus optional `as` cast; never yields
an empty type (Variant fallback). -/
def expression (g : Registry) (fuel : Nat) (s : PState) : ERes :=
  erun g fuel .expr s

/-- Parser.ternary: `a if cond else b`; the first resumption yields the
true branch's type. -/
def ternary (g : Registry) (fuel : Nat) (s : PState) : ERes :=
  erun g fuel .tern s

/-- Parser.boolean: one layer mixing logical and comparison operators; a
comparison operator forces type bool. -/
def boolean (g : Registry) (fuel : Nat) (s : PState) : ERes :=
  erun g fuel .boolE s

/-- Parser.arithmetic: optional unary prefix around the binary chain. -/
def arithmetic (g : Registry) (fuel : Nat) (s : PState) : ERes :=
  erun g fuel .arith s

/-- Parser._arithmetic: the binary arithmetic chain. -/
def _arithmetic (g : Registry) (fuel : Nat) (s : PState) : ERes :=
  erun g fuel .chain s

/-- Parser.value: literals, collection literals, subexpressions, node
shorthands and textCode. -/
def value (g : Registry) (fuel : Nat) (s : PState) : ERes :=
  erun g fuel .val s

/-- Parser.textCode: bare name, optional `self.` qualifier, then the
call / reference / subscription / lone-variable split. -/
def textCode (g : Registry) (fuel : Nat) (s : PState) : ERes :=
  erun g fuel .text s

/-- Parser.call: constructor / method / global-function call. -/
def call (g : Registry) (fuel : Nat) (name : String) (calling_type : Option String)
    (s : PState) : ERes :=
  erun g fuel (.callT name calling_type) s

/-- Parser.reference: member access on a resolved receiver type. -/
def reference (g : Registry) (fuel : Nat) (ty : Option String) (s : PState) : ERes :=
  erun g fuel (.refT ty) s

/-- Parser.subscription: index access; strips one typed-array suffix. -/
def subscription (g : Registry) (fuel : Nat) (ty : Option String) (s : PState) : ERes :=
  erun g fuel (.subT ty) s

/-- Parser.assignment: thin wrapper signalling an assignment around the
right-hand expression. -/
def assignment (g : Registry) (fuel : Nat) (onreadyName : Option String)
    (s : PState) : ERes :=
  erun g fuel (.assignT onreadyName) s

end GdScript

namespace GdScript

/-- Emission and recording step of Parser.declare: class members go into
the class data's member table (with constant/static flags), method locals
into the flat locals table. -/
def declareEmit (flags : DeclFlags) (name ty : String) (s : PState) : PState :=
  if flags.property then
    let s := { s with classData :=
      { s.classData with members := insertStr s.classData.members name ty } }
    emit (Emit.declare_property ty name flags.constant flags.static) s
  else
    let s := { s with locals := insertStr s.locals name ty }
    emit (Emit.declare_variable ty name) s

/-- Parser.declare: optional explicit type annotation, optional
initializer; the annotation wins over the inferred initializer type, and
Variant is the fallback.  Returns the updated state (the Python function
returns None). -/
def declare (g : Registry) (fuel : Nat) (dname : Option String) (flags : DeclFlags)
    (s : PState) : PState :=
  let p0 : String × PState := match dname with
    | some n => (n, s)
    | none => consume s
  let name := p0.1
  let e1 := expect p0.2 ":"
  let p : Option String × PState :=
    if e1.1 ∧ e1.2.current.type = "TEXT" then
      (some (parseType e1.2).1, (parseType e1.2).2)
    else (none, e1.2)
  let e2 := expect p.2 "="
  if e2.1 then
    let a := assignment g fuel (if flags.onready then some name else none) e2.2
    let ty := pyOrStr (pyOr p.1 a.ty) "Variant"
    emit Emit.end_statement (a.k (declareEmit flags name ty a.st))
  else
    let ty := pyOrStr p.1 "Variant"
    emit Emit.end_statement (declareEmit flags name ty e2.2)

/-- Annotation loop at the head of Parser.member: `@name[(params)]?` lines,
broken by the special `@on_ready` marker.  Returns the last annotation
name, its parameter text, the onready flag and the state. -/
def memberAnnotLoop (fuel : Nat) (annot : Option String) (params : String)
    (s : PState) : Option String × String × Bool × PState :=
  match fuel with
  | 0 => (annot, params, false, s)
  | f+1 =>
    let (hasAt, s₁) := expect s "@"
    if ¬ hasAt then (annot, params, false, s₁)
    else
      let (isOnready, s₂) := expect s₁ "on_ready"
      if isOnready then (annot, params, true, s₂)
      else
        let (an, s₃) := consume s₂
        let (hasParen, s₄) := expect s₃ "("
        if hasParen then
          let (ptxt, s₅) := consumeUntil (f+1) ")" "" s₄
          let ptxt := strReplace (strReplace ptxt "\x22" "") "\x27" ""
          let (_, s₆) := expect s₅ ")"
          let s₇ := endline (f+1) false s₆
          memberAnnotLoop f (some an) ptxt s₇
        else
          let s₇ := endline (f+1) false s₄
          memberAnnotLoop f (some an) params s₇

/-- Parser.member: annotations, then `[static]? var | const` and the
declaration; anything else falls through consuming nothing further. -/
def member (g : Registry) (fuel : Nat) (static : Bool) (s : PState) : PState :=
  let r := memberAnnotLoop fuel none "" s
  let annot := r.1
  let params := r.2.1
  let onready := r.2.2.1
  let (isConst, s₁) := expect r.2.2.2 "const"
  let p : Bool × PState := if isConst then (false, s₁) else expect s₁ "var"
  if isConst ∨ p.1 then
    let (m, s₂) := consume p.2
    let s₃ := match annot with
      | some an => emit (Emit.annotationE an params m) s₂
      | none => s₂
    declare g fuel (some m) (memberFlags static isConst onready) s₃
  else p.2

/-- Parser.enum: optional name, then the raw definition text up to and
including the closing brace, passed through unparsed. -/
def enum (fuel : Nat) (s : PState) : PState :=
  let p : String × PState :=
    if s.current.type = "TEXT" then consume s else ("", s)
  let (d1, s₁) := consumeUntil fuel "\x7d" "" p.2
  let (d2, s₂) := consume s₁
  emit (Emit.enumE p.1 (d1 ++ d2)) s₂

/-- Parameter loop of Parser.signal (`Variant` is the direct default here). -/
def signalParamsLoop (fuel : Nat) (last : Nat) (acc : List (String × String))
    (s : PState) : List (String × String) × PState :=
  match fuel with
  | 0 => (acc, s)
  | f+1 =>
    if s.pos = last then (acc, s)
    else
      let (rp, s₁) := expect s ")"
      if rp then (acc, s₁)
      else
        let last' := s₁.pos
        let (pName, s₂) := consume s₁
        let (hasColon, s₃) := expect s₂ ":"
        let p : String × PState :=
          if hasColon ∧ s₃.current.type = "TEXT" then parseType s₃
          else ("Variant", s₃)
        let (_, s₄) := expect p.2 ","
        signalParamsLoop f last' (insertStr acc pName p.1) s₄

/-- Parser.signal: name and optional typed parameter list. -/
def signal (fuel : Nat) (s : PState) : PState :=
  let (name, s₁) := consume s
  let (hasParen, s₂) := expect s₁ "("
  let r : List (String × String) × PState :=
    if hasParen then signalParamsLoop fuel (s₂.pos + 1) [] s₂
    else ([], s₂)
  emit (Emit.define_signal name r.1) r.2

/-- Parser.returnStmt: expression, return signal, statement end; yields the
expression's type upward. -/
def returnStmt (g : Registry) (fuel : Nat) (s : PState) : Option String × PState :=
  let e := expression g fuel s
  let s₁ := emit Emit.returnE e.st
  let s₂ := e.k s₁
  (e.ty, emit Emit.end_statement s₂)

/-- Parser.reassign: generic assignment-or-expression statement. -/
def reassign (g : Registry) (fuel : Nat) (s : PState) : PState :=
  let e := expression g fuel s
  let (isAssign, s₁) := expect e.st "="
  if isAssign then
    let a := assignment g fuel none s₁
    emit Emit.end_statement (a.k (e.k a.st))
  else
    emit Emit.end_statement (e.k s₁)

/-- Parameter loop of Parser.method: optional type annotation, optional
default-value producer (whose second resumption is kept for the backend),
Variant fallback. -/
def methodParamsLoop (g : Registry) (fuel : Nat) (last : Nat)
    (params : List (String × String)) (inits : List (String × (PState → PState)))
    (s : PState) : List (String × String) × List (String × (PState → PState)) × PState :=
  match fuel with
  | 0 => (params, inits, s)
  | f+1 =>
    if s.pos = last then (params, inits, s)
    else
      let (rp, s₁) := expect s ")"
      if rp then (params, inits, s₁)
      else
        let last' := s₁.pos
        let (pName, s₂) := consume s₁
        let (hasColon, s₃) := expect s₂ ":"
        let p : Option String × PState :=
          if hasColon ∧ s₃.current.type = "TEXT" then
            let (t, s') := parseType s₃
            (some t, s')
          else (none, s₃)
        let (hasInit, s₄) := expect p.2 "="
        let q : Option String × List (String × (PState → PState)) × PState :=
          if hasInit then
            let e := expression g (f+1) s₄
            (pyOr p.1 e.ty, insertStr inits pName e.k, e.st)
          else (p.1, inits, s₄)
        let pTy := pyOrStr q.1 "Variant"
        let (_, s₅) := expect q.2.2 ","
        methodParamsLoop g f last' (insertStr params pName pTy) q.2.1 s₅

/-- Result of a statement-level rule: the inferred type propagated upward
and the updated state. -/
structure SRes where
  ty : Option String
  st : PState

/-- Call tags for the mutually recursive statement-and-block layer of
Parser.py (the rules that recurse through Block). -/
inductive SCall where
  | classBody
  | classLoop (last : Nat)
  | nestedClass
  | nestedLoop (classLvl last : Nat)
  | methodT (static : Bool)
  | statementT
  | blockT (addBreak : Bool)
  | blockLoop (addBreak : Bool) (blockLvl : Nat) (acc : Option String) (last : Nat)
  | ifT
  | elifLoop (acc : Option String)
  | whileT
  | forT
  | matchT
  | casesLoop (switchLvl : Nat) (acc : Option String) (last : Nat)

/-- Interpreter for the statement/block/script layer of Parser.py.  Loop
tags carry the doWhile progress guard (`last` is the position at the
previous check; entry uses pos + 1 so the first iteration always passes)
and the type accumulators of the Python locals they model.  Producers
passed to the backend (conditions, iterated expressions, match patterns and
guards) are driven in program order. -/
def srun (g : Registry) : Nat → SCall → PState → SRes
  | 0, _, s => ⟨none, s⟩
  | f+1, c, s =>
    match c with
    | .classBody =>
      let (isStatic, s₁) := expect s "static"
      let (isClass, s₂) := expect s₁ "class"
      if isClass then
        let r := srun g f .nestedClass s₂
        ⟨none, endline (f+1) false r.st⟩
      else
        let (isEnum, s₃) := expect s₂ "enum"
        if isEnum then ⟨none, endline (f+1) false (enum (f+1) s₃)⟩
        else
          let (isFunc, s₄) := expect s₃ "func"
          if isFunc then
            let r := srun g f (.methodT isStatic) s₄
            ⟨none, endline (f+1) false r.st⟩
          else
            let (isSignal, s₅) := expect s₄ "signal"
            if isSignal then ⟨none, endline (f+1) false (signal (f+1) s₅)⟩
            else ⟨none, endline (f+1) false (member g (f+1) isStatic s₅)⟩
    | .classLoop last =>
      if s.pos = last then ⟨none, s⟩
      else
        let r := srun g f .classBody s
        srun g f (.classLoop s.pos) r.st
    | .nestedClass =>
      let (cname, s₁) := consume s
      let (hasExt, s₂) := expect s₁ "extends"
      let p : String × PState := if hasExt then consume s₂ else ("Object", s₂)
      let s₃ := emit (Emit.define_class cname p.1 false) p.2
      let (_, s₄) := expect s₃ ":"
      let s₅ := { s₄ with level := s₄.level + 1 }
      let r := srun g f (.nestedLoop s₅.level (s₅.pos + 1)) s₅
      ⟨none, r.st⟩
    | .nestedLoop classLvl last =>
      if s.pos = last then ⟨none, s⟩
      else if ¬ (classLvl ≤ s.level) then ⟨none, s⟩
      else
        let r := srun g f .classBody s
        srun g f (.nestedLoop classLvl s.pos) r.st
    | .methodT static =>
      let (name, s₁) := consume s
      let (_, s₂) := expect s₁ "("
      let pr := methodParamsLoop g (f+1) (s₂.pos + 1) [] [] s₂
      let params := pr.1
      let inits := pr.2.1
      let s₃ := params.foldl
        (fun st p => { st with locals := insertStr st.locals p.1 p.2 }) pr.2.2
      let (hasArrow, s₄) := expect s₃ "->"
      let rt : Option String × PState :=
        if hasArrow then
          let (t, s') := parseType s₄
          (some t, s')
        else (none, s₄)
      let (_, s₅) := expect rt.2 ":"
      let s₆ := emit Emit.addLayer s₅
      let b := srun g f (.blockT false) s₆
      let returnType := pyOr rt.1 b.ty
      let s₇ := { b.st with classData :=
        { b.st.classData with methods := insertStr b.st.classData.methods name returnType } }
      let s₈ := emit (Emit.define_method name params returnType static) s₇
      ⟨none, inits.foldl (fun st pr => pr.2 st) s₈⟩
    | .statementT =>
      let (isPass, s₁) := expect s "pass"
      if isPass then ⟨none, s₁⟩
      else
        let (isVar, s₂) := expect s₁ "var"
        if isVar then ⟨none, declare g (f+1) none DeclFlags.none s₂⟩
        else
          let (isConst, s₃) := expect s₂ "const"
          if isConst then ⟨none, declare g (f+1) none DeclFlags.constantOnly s₃⟩
          else
            let (isIf, s₄) := expect s₃ "if"
            if isIf then srun g f .ifT s₄
            else
              let (isWhile, s₅) := expect s₄ "while"
              if isWhile then srun g f .whileT s₅
              else
                let (isFor, s₆) := expect s₅ "for"
                if isFor then srun g f .forT s₆
                else
                  let (isMatch, s₇) := expect s₆ "match"
                  if isMatch then srun g f .matchT s₇
                  else
                    let (isRet, s₈) := expect s₇ "return"
                    if isRet then
                      let r := returnStmt g (f+1) s₈
                      ⟨r.1, r.2⟩
                    else
                      let (isBreak, s₉) := expect s₈ "break"
                      if isBreak then ⟨none, emit Emit.breakE s₉⟩
                      else
                        let (isCont, s10) := expect s₉ "continue"
                        if isCont then ⟨none, emit Emit.continueE s10⟩
                        else if ¬ (s10.current.type = "LINE_END" ∨
                            s10.current.type = "COMMENT" ∨
                            s10.current.type = "LONG_STRING") then
                          ⟨none, reassign g (f+1) s10⟩
                        else ⟨none, s10⟩
    | .blockT addBreak =>
      let s₁ := { s with level := s.level + 1 }
      let s₂ := emit Emit.upScope s₁
      srun g f (.blockLoop addBreak s₁.level none (s₂.pos + 1)) s₂
    | .blockLoop addBreak blockLvl acc last =>
      if s.pos = last then ⟨acc, s⟩
      else if ¬ (blockLvl ≤ s.level) then ⟨acc, s⟩
      else
        let r := srun g f .statementT s
        let s₁ := endline (f+1) addBreak r.st
        srun g f (.blockLoop addBreak blockLvl (pyOr acc r.ty) s.pos) s₁
    | .ifT =>
      let cond := boolean g (f+1) s
      let s₁ := emit Emit.ifE cond.st
      let s₂ := cond.k s₁
      let (_, s₃) := expect s₂ ":"
      let b := srun g f (.blockT false) s₃
      srun g f (.elifLoop b.ty) b.st
    | .elifLoop acc =>
      let (isElif, s₁) := expect s "elif"
      if isElif then
        let cond := boolean g (f+1) s₁
        let s₂ := emit Emit.elifE cond.st
        let s₃ := cond.k s₂
        let (_, s₄) := expect s₃ ":"
        let b := srun g f (.blockT false) s₄
        srun g f (.elifLoop (pyOr acc b.ty)) b.st
      else
        let (isElse, s₂) := expect s₁ "else"
        if isElse then
          let (hasColon, s₃) := expect s₂ ":"
          if hasColon then
            let s₄ := emit Emit.elseE s₃
            let b := srun g f (.blockT false) s₄
            ⟨pyOr acc b.ty, b.st⟩
          else ⟨acc, s₃⟩
        else ⟨acc, s₂⟩
    | .whileT =>
      let cond := boolean g (f+1) s
      let s₁ := emit Emit.whileE cond.st
      let s₂ := cond.k s₁
      let (_, s₃) := expect s₂ ":"
      let b := srun g f (.blockT false) s₃
      ⟨b.ty, b.st⟩
    | .forT =>
      let (name, s₁) := consume s
      let (_, s₂) := expect s₁ "in"
      let e := expression g (f+1) s₂
      let iteratorTy := strReplace (e.ty.getD "Variant") "[]" ""
      let s₃ := { e.st with locals := insertStr e.st.locals name iteratorTy }
      let s₄ := emit (Emit.forE name iteratorTy) s₃
      let s₅ := e.k s₄
      let (_, s₆) := expect s₅ ":"
      let b := srun g f (.blockT false) s₆
      ⟨b.ty, b.st⟩
    | .matchT =>
      let s₀ := emit Emit.matchE s
      let e := expression g (f+1) s₀
      let s₁ := e.k e.st
      let (_, s₂) := expect s₁ ":"
      let s₃ := { s₂ with level := s₂.level + 1 }
      srun g f (.casesLoop s₃.level none (s₃.pos + 1)) s₃
    | .casesLoop switchLvl acc last =>
      if s.pos = last then ⟨acc, s⟩
      else if ¬ (switchLvl ≤ s.level) then ⟨acc, s⟩
      else
        let s₁ := endline (f+1) false s
        let (isDefault, s₂) := expect s₁ "_"
        let pt : Option ERes × PState :=
          if isDefault then (none, s₂)
          else
            let p := expression g (f+1) s₂
            (some p, p.st)
        let (hasWhen, s₃) := expect pt.2 "when"
        let wh : Option ERes × PState :=
          if hasWhen then
            let w := boolean g (f+1) s₃
            (some w, w.st)
          else (none, s₃)
        let (_, s₄) := expect wh.2 ":"
        let s₅ := emit (Emit.matchCase isDefault hasWhen) s₄
        let s₆ := match pt.1 with | some p => p.k s₅ | none => s₅
        let s₇ := match wh.1 with | some w => w.k s₆ | none => s₆
        let b := srun g f (.blockT true) s₇
        srun g f (.casesLoop switchLvl (pyOr acc b.ty) s.pos) b.st

/-- Parser.class_body: member-construct dispatch followed by endline. -/
def class_body (g : Registry) (fuel : Nat) (s : PState) : PState :=
  (srun g fuel .classBody s).st

/-- Parser.nested_class: inner class declaration, scoped by indentation;
never registered into the registry. -/
def nested_class (g : Registry) (fuel : Nat) (s : PState) : PState :=
  (srun g fuel .nestedClass s).st

/-- Parser.method: signature, params into locals, buffered body, recorded
return type (annotation winning over the inferred block type). -/
def method (g : Registry) (fuel : Nat) (static : Bool) (s : PState) : PState :=
  (srun g fuel (.methodT static) s).st

/-- Parser.statement: keyword dispatch. -/
def statement (g : Registry) (fuel : Nat) (s : PState) : Option String × PState :=
  let r := srun g fuel .statementT s
  (r.ty, r.st)

/-- Parser.Block: open a scope, loop statements while indentation holds,
yield the first non-empty statement type. -/
def Block (g : Registry) (fuel : Nat) (addBreak : Bool) (s : PState) :
    Option String × PState :=
  let r := srun g fuel (.blockT addBreak) s
  (r.ty, r.st)

/-- Parser.ifStmt with its elif/else chain. -/
def ifStmt (g : Registry) (fuel : Nat) (s : PState) : Option String × PState :=
  let r := srun g fuel .ifT s
  (r.ty, r.st)

/-- Parser.whileStmt. -/
def whileStmt (g : Registry) (fuel : Nat) (s : PState) : Option String × PState :=
  let r := srun g fuel .whileT s
  (r.ty, r.st)

/-- Parser.forStmt: loop variable typed by the iterated expression with the
typed-array suffix stripped, registered into locals before the block. -/
def forStmt (g : Registry) (fuel : Nat) (s : PState) : Option String × PState :=
  let r := srun g fuel .forT s
  (r.ty, r.st)

/-- Parser.matchStmt: subject expression then guarded cases with break
semantics. -/
def matchStmt (g : Registry) (fuel : Nat) (s : PState) : Option String × PState :=
  let r := srun g fuel .matchT s
  (r.ty, r.st)

/-- Opening part of Parser.transpile: tool marker, base class (default
Object), class name (default the script name), class data seeded from the
registry entry of the base class, class declaration signal. -/
def transpileProlog (g : Registry) (script_name : String) (fuel : Nat)
    (s : PState) : PState :=
  let s1 := endline fuel false s
  let e1 := expect s1 "@"
  let p : Bool × PState := if e1.1 then expect e1.2 "tool" else (false, e1.2)
  let s2 := endline fuel false { p.2 with is_tool := p.1 }
  let e2 := expect s2 "extends"
  let q : String × PState := if e2.1 then consume e2.2 else ("Object", e2.2)
  let s3 := endline fuel false { q.2 with base_class := q.1 }
  let e3 := expect s3 "class_name"
  let r : String × PState := if e3.1 then consume e3.2 else (script_name, e3.2)
  let s4 := { r.2 with class_name := r.1 }
  let s5 := { s4 with classData :=
    (match lookupStr g s4.base_class with
     | some cd => copyClassData cd
     | none => ClassData.empty) }
  endline fuel false (emit (Emit.define_class s5.class_name s5.base_class s5.is_tool) s5)

/-- One iteration of the `range(2)` script-level loop of Parser.transpile:
the class-body loop until progress stops, then either the EOF break (flag
true) or one panic recovery (skip to the line boundary, panic comment);
the last component counts the recovery (0 or 1). -/
def transpileRound (g : Registry) (fuel : Nat) (s : PState) : PState × Bool × Nat :=
  let s₁ := (srun g fuel (.classLoop (s.pos + 1)) s).st
  if s₁.current.type = "EOF" then (s₁, true, 0)
  else
    let tok := s₁.current
    let cu := consumeUntil fuel "LINE_END" " " s₁
    let escaped := strReplace cu.1 "\x0A" "\\n"
    let s₃ := endline fuel false cu.2
    let msg := "PANIC! <" ++ escaped ++ "> unexpected at " ++ tok.type ++ ":" ++ tok.value
    (emit (Emit.line_comment msg) s₃, false, 1)

/-- Parser.transpile, also counting the panic recoveries performed: the
prologue, the two-round script loop (the second round is skipped after an
EOF break in the first), and the end_script finalization. -/
def transpileCount (g : Registry) (script_name : String) (fuel : Nat)
    (toks : List Token) : PState × Nat :=
  let s := transpileProlog g script_name fuel (initState toks)
  let r1 := transpileRound g fuel s
  if r1.2.1 then (emit Emit.end_script r1.1, r1.2.2)
  else
    let r2 := transpileRound g fuel r1.1
    (emit Emit.end_script r2.1, r1.2.2 + r2.2.2)

/-- Parser.transpile: the full script parse. -/
def transpile (g : Registry) (script_name : String) (fuel : Nat)
    (toks : List Token) : PState :=
  (transpileCount g script_name fuel toks).1

end GdScript

namespace GdScript

/-- Tags whose interpreter run models a first resumption (phase one); the
array and dictionary element loops instead run during the second
resumption. -/
def ph1Tag : ECall → Bool
  | .arrT => false
  | .dictT => false
  | _ => true

/-- Trace extension order: the second state's emission trace extends the
first state's. -/
def OutLe (s t : PState) : Prop := ∃ l, t.out = s.out ++ l

/-- Token helper for examples: an integer literal token. -/
def tINT (v : String) : Token := ⟨"INT", v⟩

/-- Token helper for examples: a float literal token. -/
def tFLOAT (v : String) : Token := ⟨"FLOAT", v⟩

/-- Token helper for examples: a string literal token. -/
def tSTR (v : String) : Token := ⟨"STRING", v⟩

/-- Token helper for examples: a name or keyword token. -/
def tTEXT (v : String) : Token := ⟨"TEXT", v⟩

/-- Token helper for examples: a punctuation token. -/
def tPUNCT (v : String) : Token := ⟨"PUNCT", v⟩

/-- Token helper for examples: an arithmetic operator token. -/
def tARITH (v : String) : Token := ⟨"ARITHMETIC", v⟩

/-- Token helper for examples: a line-break token carrying the next line's
indentation depth. -/
def tNL (v : String) : Token := ⟨"LINE_END", v⟩

/-- Small concrete registry for the example runs: the synthetic global
scope, Object and Node. -/
def gEx : Registry :=
  [("@GlobalScope", ⟨[], [("print", none)], [("KEY_ESCAPE", "int")]⟩),
   ("Object", ⟨[("name", "string")], [], []⟩),
   ("Node", ⟨[("position", "Vector2")], [("get_child", some "Node")], [("READY", "int")]⟩)]

/-- Script with two unparsable top-level lines and a valid member after
each: `42 / var x = 1 / 37 / var y = 2`. -/
def toksTwoBad : List Token :=
  [tINT "42", tNL "0",
   tTEXT "var", tTEXT "x", tPUNCT "=", tINT "1", tNL "0",
   tINT "37", tNL "0",
   tTEXT "var", tTEXT "y", tPUNCT "=", tINT "2", tNL "0"]

/-- Script with three unparsable top-level lines: `42 / 37 / 99`. -/
def toksThreeBad : List Token :=
  [tINT "42", tNL "0", tINT "37", tNL "0", tINT "99", tNL "0"]

/-- Panic comments in a trace: line comments whose text carries the panic
marker the driver writes. -/
def panicCount (l : List Emit) : Nat :=
  l.countP fun e =>
    match e with
    | Emit.line_comment t => isPrefixList ("PANIC!".data) t.data
    | _ => false

end GdScript

namespace GdScript

theorem outLe_refl (s : PState) : OutLe s s := ⟨[], by simp⟩

theorem OutLe.trans {a b c : PState} (h₁ : OutLe a b) (h₂ : OutLe b c) : OutLe a c := by
  obtain ⟨l₁, e₁⟩ := h₁
  obtain ⟨l₂, e₂⟩ := h₂
  exact ⟨l₁ ++ l₂, by rw [e₂, e₁, List.append_assoc]⟩

theorem outLe_of_eq {a b : PState} (h : b.out = a.out) : OutLe a b := ⟨[], by simp [h]⟩

theorem advance_out (s : PState) : (advance s).out = s.out := by
  unfold advance
  rcases s.rest with _ | ⟨t, ts⟩ <;> rfl

theorem consume_out (s : PState) : (consume s).2.out = s.out := advance_out s

theorem expect_out (s : PState) (t : String) : (expect s t).2.out = s.out := by
  unfold expect
  split
  · exact advance_out s
  · rfl

theorem parseType_out (s : PState) : (parseType s).2.out = s.out := by
  unfold parseType
  simp only [consume, expect]
  repeat' split
  all_goals simp [advance_out]

theorem OutLe.emitR {a b : PState} (h : OutLe a b) (e : Emit) : OutLe a (emit e b) :=
  h.trans ⟨[e], rfl⟩

theorem OutLe.advanceR {a b : PState} (h : OutLe a b) : OutLe a (advance b) :=
  h.trans (outLe_of_eq (advance_out b))

theorem OutLe.expectR {a b : PState} (h : OutLe a b) (t : String) :
    OutLe a (expect b t).2 :=
  h.trans (outLe_of_eq (expect_out b t))

theorem OutLe.consumeR {a b : PState} (h : OutLe a b) : OutLe a (consume b).2 :=
  h.trans (outLe_of_eq (consume_out b))

theorem OutLe.parseTypeR {a b : PState} (h : OutLe a b) : OutLe a (parseType b).2 :=
  h.trans (outLe_of_eq (parseType_out b))

theorem OutLe.foldlR {a b : PState} {ks : List (PState → PState)}
    (hks : ∀ k ∈ ks, ∀ y, OutLe y (k y)) (h : OutLe a b) :
    OutLe a (ks.foldl (fun acc k => k acc) b) := by
  induction ks generalizing b with
  | nil => exact h
  | cons k ks ih =>
    simp only [List.foldl_cons]
    exact ih (fun k' hk' y => hks k' (List.mem_cons_of_mem _ hk') y)
      (h.trans (hks k (List.mem_cons_self _ _) b))

end GdScript

namespace GdScript

theorem outLe_ite_st {c : Prop} [Decidable c] {a b : ERes} {s : PState}
    (ha : OutLe s a.st) (hb : OutLe s b.st) : OutLe s (ite c a b).st := by
  by_cases h : c
  · simp only [if_pos h]
    assumption
  · simp only [if_neg h]
    assumption

theorem outLe_ite_state {c : Prop} [Decidable c] {x y a : PState}
    (hx : OutLe a x) (hy : OutLe a y) : OutLe a (ite c x y) := by
  by_cases h : c
  · simp only [if_pos h]
    assumption
  · simp only [if_neg h]
    assumption

theorem ite_st_out {c : Prop} [Decidable c] {a b : ERes} {o : List Emit}
    (ha : a.st.out = o) (hb : b.st.out = o) : (ite c a b).st.out = o := by
  by_cases h : c
  · simp only [if_pos h]
    assumption
  · simp only [if_neg h]
    assumption

theorem outLe_ite_k {c : Prop} [Decidable c] {a b : ERes} {s' : PState}
    (ha : OutLe s' (a.k s')) (hb : OutLe s' (b.k s')) : OutLe s' ((ite c a b).k s') := by
  by_cases h : c
  · simp only [if_pos h]
    assumption
  · simp only [if_neg h]
    assumption

theorem ks_ite {c : Prop} [Decidable c] {a b : ERes}
    (ha : ∀ k ∈ a.ks, ∀ s', OutLe s' (k s'))
    (hb : ∀ k ∈ b.ks, ∀ s', OutLe s' (k s')) :
    ∀ k ∈ (ite c a b).ks, ∀ s', OutLe s' (k s') := by
  by_cases h : c
  · simp only [if_pos h]
    assumption
  · simp only [if_neg h]
    assumption

theorem ks_mk {ty : Option String} {st : PState} {kk : PState → PState} :
    ∀ k ∈ (⟨ty, st, kk, []⟩ : ERes).ks, ∀ s', OutLe s' (k s') :=
  fun k hkm => absurd hkm (List.not_mem_nil k)

end GdScript

namespace GdScript

theorem outLe_ite_snd1 {c : Prop} [Decidable c] {x y : Bool × PState × String}
    {a : PState} (hx : OutLe a x.2.1) (hy : OutLe a y.2.1) :
    OutLe a (ite c x y).2.1 := by
  by_cases h : c
  · simp only [if_pos h]
    assumption
  · simp only [if_neg h]
    assumption

theorem ite_snd1_out {c : Prop} [Decidable c] {x y : Bool × PState × String}
    {o : List Emit} (hx : x.2.1.out = o) (hy : y.2.1.out = o) :
    (ite c x y).2.1.out = o := by
  by_cases h : c
  · simp only [if_pos h]
    assumption
  · simp only [if_neg h]
    assumption

end GdScript

namespace GdScript

set_option maxHeartbeats 1600000 in
/-- Core two-phase lemma for the expression engine: a first resumption
leaves the emission trace unchanged, and second resumptions (and the
element/argument loops) only ever append to it. -/
theorem erun_phases (g : Registry) : ∀ (f : Nat) (c : ECall) (s : PState),
    OutLe s (erun g f c s).st
    ∧ (ph1Tag c = true → (erun g f c s).st.out = s.out)
    ∧ (∀ s', OutLe s' ((erun g f c s).k s'))
    ∧ (∀ k ∈ (erun g f c s).ks, ∀ s', OutLe s' (k s')) := by
  intro f
  induction f with
  | zero =>
    intro c s
    exact ⟨outLe_refl s, fun _ => rfl, fun s' => outLe_refl s', by simp [erun]⟩
  | succ f ih =>
    intro c s
    have hst : ∀ c x, OutLe x (erun g f c x).st := fun c x => (ih c x).1
    have heq : ∀ c x, ph1Tag c = true → (erun g f c x).st.out = x.out :=
      fun c x => (ih c x).2.1
    have hk : ∀ c x (a y : PState), OutLe a y → OutLe a ((erun g f c x).k y) :=
      fun c x a y h => h.trans ((ih c x).2.2.1 y)
    have hstLe : ∀ c (a y : PState), OutLe a y → OutLe a (erun g f c y).st :=
      fun c a y h => h.trans (hst c y)
    have hEx : ∀ x, (erun g f ECall.expr x).st.out = x.out := fun x => heq _ x rfl
    have hT : ∀ x, (erun g f ECall.tern x).st.out = x.out := fun x => heq _ x rfl
    have hB : ∀ x, (erun g f ECall.boolE x).st.out = x.out := fun x => heq _ x rfl
    have hA : ∀ x, (erun g f ECall.arith x).st.out = x.out := fun x => heq _ x rfl
    have hC : ∀ x, (erun g f ECall.chain x).st.out = x.out := fun x => heq _ x rfl
    have hV : ∀ x, (erun g f ECall.val x).st.out = x.out := fun x => heq _ x rfl
    have hX : ∀ x, (erun g f ECall.text x).st.out = x.out := fun x => heq _ x rfl
    have hXT : ∀ b n x, (erun g f (ECall.textTail b n) x).st.out = x.out :=
      fun b n x => heq _ x rfl
    have hCa : ∀ n ct x, (erun g f (ECall.callT n ct) x).st.out = x.out :=
      fun n ct x => heq _ x rfl
    have hR : ∀ ty x, (erun g f (ECall.refT ty) x).st.out = x.out :=
      fun ty x => heq _ x rfl
    have hSu : ∀ ty x, (erun g f (ECall.subT ty) x).st.out = x.out :=
      fun ty x => heq _ x rfl
    have hAsn : ∀ o x, (erun g f (ECall.assignT o) x).st.out = x.out :=
      fun o x => heq _ x rfl
    have hAr : ∀ x, (erun g f ECall.argsT x).st.out = x.out := fun x => heq _ x rfl
    cases c with
    | expr =>
      refine ⟨?_, ?_, ?_, ?_⟩
      · simp only [erun]
        repeat' apply outLe_ite_st
        all_goals
          repeat first
          | exact outLe_refl _
          | apply OutLe.parseTypeR
          | apply OutLe.expectR
          | apply OutLe.consumeR
          | apply OutLe.advanceR
          | apply OutLe.emitR
          | apply OutLe.foldlR
          | exact (ih _ _).2.2.2
          | apply hk
          | apply hstLe
          | apply outLe_ite_state
          | apply outLe_ite_snd1
          | dsimp only
      · intro _
        simp only [erun]
        repeat' apply ite_st_out
        all_goals
          simp [expect_out, consume_out, advance_out, parseType_out,
            hEx, hT, hB, hA, hC, hV, hX, hXT, hCa, hR, hSu, hAsn, hAr]
      · intro s'
        simp only [erun]
        repeat' apply outLe_ite_k
        all_goals
          repeat first
          | exact outLe_refl _
          | apply OutLe.parseTypeR
          | apply OutLe.expectR
          | apply OutLe.consumeR
          | apply OutLe.advanceR
          | apply OutLe.emitR
          | apply OutLe.foldlR
          | exact (ih _ _).2.2.2
          | apply hk
          | apply hstLe
          | apply outLe_ite_state
          | apply outLe_ite_snd1
          | dsimp only
      · simp only [erun]
        repeat' apply ks_ite
        all_goals
          first
          | exact ks_mk
          | exact fun k hkm => absurd hkm (List.not_mem_nil k)
          | exact (ih _ _).2.2.2
    | tern =>
      refine ⟨?_, ?_, ?_, ?_⟩
      · simp only [erun]
        repeat' apply outLe_ite_st
        all_goals
          repeat first
          | exact outLe_refl _
          | apply OutLe.parseTypeR
          | apply OutLe.expectR
          | apply OutLe.consumeR
          | apply OutLe.advanceR
          | apply OutLe.emitR
          | apply OutLe.foldlR
          | exact (ih _ _).2.2.2
          | apply hk
          | apply hstLe
          | apply outLe_ite_state
          | apply outLe_ite_snd1
          | dsimp only
      · intro _
        simp only [erun]
        repeat' apply ite_st_out
        all_goals
          simp [expect_out, consume_out, advance_out, parseType_out,
            hEx, hT, hB, hA, hC, hV, hX, hXT, hCa, hR, hSu, hAsn, hAr]
      · intro s'
        simp only [erun]
        repeat' apply outLe_ite_k
        all_goals
          repeat first
          | exact outLe_refl _
          | apply OutLe.parseTypeR
          | apply OutLe.expectR
          | apply OutLe.consumeR
          | apply OutLe.advanceR
          | apply OutLe.emitR
          | apply OutLe.foldlR
          | exact (ih _ _).2.2.2
          | apply hk
          | apply hstLe
          | apply outLe_ite_state
          | apply outLe_ite_snd1
          | dsimp only
      · simp only [erun]
        repeat' apply ks_ite
        all_goals
          first
          | exact ks_mk
          | exact fun k hkm => absurd hkm (List.not_mem_nil k)
          | exact (ih _ _).2.2.2
    | boolE =>
      refine ⟨?_, ?_, ?_, ?_⟩
      · simp only [erun]
        repeat' apply outLe_ite_st
        all_goals
          repeat first
          | exact outLe_refl _
          | apply OutLe.parseTypeR
          | apply OutLe.expectR
          | apply OutLe.consumeR
          | apply OutLe.advanceR
          | apply OutLe.emitR
          | apply OutLe.foldlR
          | exact (ih _ _).2.2.2
          | apply hk
          | apply hstLe
          | apply outLe_ite_state
          | apply outLe_ite_snd1
          | dsimp only
      · intro _
        simp only [erun]
        repeat' apply ite_st_out
        all_goals
          simp [expect_out, consume_out, advance_out, parseType_out,
            hEx, hT, hB, hA, hC, hV, hX, hXT, hCa, hR, hSu, hAsn, hAr]
      · intro s'
        simp only [erun]
        repeat' apply outLe_ite_k
        all_goals
          repeat first
          | exact outLe_refl _
          | apply OutLe.parseTypeR
          | apply OutLe.expectR
          | apply OutLe.consumeR
          | apply OutLe.advanceR
          | apply OutLe.emitR
          | apply OutLe.foldlR
          | exact (ih _ _).2.2.2
          | apply hk
          | apply hstLe
          | apply outLe_ite_state
          | apply outLe_ite_snd1
          | dsimp only
      · simp only [erun]
        repeat' apply ks_ite
        all_goals
          first
          | exact ks_mk
          | exact fun k hkm => absurd hkm (List.not_mem_nil k)
          | exact (ih _ _).2.2.2
    | arith =>
      refine ⟨?_, ?_, ?_, ?_⟩
      · simp only [erun]
        repeat' apply outLe_ite_st
        all_goals
          repeat first
          | exact outLe_refl _
          | apply OutLe.parseTypeR
          | apply OutLe.expectR
          | apply OutLe.consumeR
          | apply OutLe.advanceR
          | apply OutLe.emitR
          | apply OutLe.foldlR
          | exact (ih _ _).2.2.2
          | apply hk
          | apply hstLe
          | apply outLe_ite_state
          | apply outLe_ite_snd1
          | dsimp only
      · intro _
        simp only [erun]
        repeat' apply ite_st_out
        all_goals
          simp [expect_out, consume_out, advance_out, parseType_out,
            hEx, hT, hB, hA, hC, hV, hX, hXT, hCa, hR, hSu, hAsn, hAr]
      · intro s'
        simp only [erun]
        repeat' apply outLe_ite_k
        all_goals
          repeat first
          | exact outLe_refl _
          | apply OutLe.parseTypeR
          | apply OutLe.expectR
          | apply OutLe.consumeR
          | apply OutLe.advanceR
          | apply OutLe.emitR
          | apply OutLe.foldlR
          | exact (ih _ _).2.2.2
          | apply hk
          | apply hstLe
          | apply outLe_ite_state
          | apply outLe_ite_snd1
          | dsimp only
      · simp only [erun]
        repeat' apply ks_ite
        all_goals
          first
          | exact ks_mk
          | exact fun k hkm => absurd hkm (List.not_mem_nil k)
          | exact (ih _ _).2.2.2
    | chain =>
      refine ⟨?_, ?_, ?_, ?_⟩
      · simp only [erun]
        repeat' apply outLe_ite_st
        all_goals
          repeat first
          | exact outLe_refl _
          | apply OutLe.parseTypeR
          | apply OutLe.expectR
          | apply OutLe.consumeR
          | apply OutLe.advanceR
          | apply OutLe.emitR
          | apply OutLe.foldlR
          | exact (ih _ _).2.2.2
          | apply hk
          | apply hstLe
          | apply outLe_ite_state
          | apply outLe_ite_snd1
          | dsimp only
      · intro _
        simp only [erun]
        repeat' apply ite_st_out
        all_goals
          simp [expect_out, consume_out, advance_out, parseType_out,
            hEx, hT, hB, hA, hC, hV, hX, hXT, hCa, hR, hSu, hAsn, hAr]
      · intro s'
        simp only [erun]
        repeat' apply outLe_ite_k
        all_goals
          repeat first
          | exact outLe_refl _
          | apply OutLe.parseTypeR
          | apply OutLe.expectR
          | apply OutLe.consumeR
          | apply OutLe.advanceR
          | apply OutLe.emitR
          | apply OutLe.foldlR
          | exact (ih _ _).2.2.2
          | apply hk
          | apply hstLe
          | apply outLe_ite_state
          | apply outLe_ite_snd1
          | dsimp only
      · simp only [erun]
        repeat' apply ks_ite
        all_goals
          first
          | exact ks_mk
          | exact fun k hkm => absurd hkm (List.not_mem_nil k)
          | exact (ih _ _).2.2.2
    | val =>
      refine ⟨?_, ?_, ?_, ?_⟩
      · simp only [erun]
        repeat' apply outLe_ite_st
        all_goals
          repeat first
          | exact outLe_refl _
          | apply OutLe.parseTypeR
          | apply OutLe.expectR
          | apply OutLe.consumeR
          | apply OutLe.advanceR
          | apply OutLe.emitR
          | apply OutLe.foldlR
          | exact (ih _ _).2.2.2
          | apply hk
          | apply hstLe
          | apply outLe_ite_state
          | apply outLe_ite_snd1
          | dsimp only
      · intro _
        simp only [erun]
        repeat' apply ite_st_out
        all_goals
          simp [expect_out, consume_out, advance_out, parseType_out,
            hEx, hT, hB, hA, hC, hV, hX, hXT, hCa, hR, hSu, hAsn, hAr]
      · intro s'
        simp only [erun]
        repeat' apply outLe_ite_k
        all_goals
          repeat first
          | exact outLe_refl _
          | apply OutLe.parseTypeR
          | apply OutLe.expectR
          | apply OutLe.consumeR
          | apply OutLe.advanceR
          | apply OutLe.emitR
          | apply OutLe.foldlR
          | exact (ih _ _).2.2.2
          | apply hk
          | apply hstLe
          | apply outLe_ite_state
          | apply outLe_ite_snd1
          | dsimp only
      · simp only [erun]
        repeat' apply ks_ite
        all_goals
          first
          | exact ks_mk
          | exact fun k hkm => absurd hkm (List.not_mem_nil k)
          | exact (ih _ _).2.2.2
    | text =>
      refine ⟨?_, ?_, ?_, ?_⟩
      · simp only [erun]
        apply hstLe
        repeat first
          | exact outLe_refl _
          | apply OutLe.parseTypeR
          | apply OutLe.expectR
          | apply OutLe.consumeR
          | apply OutLe.advanceR
          | apply OutLe.emitR
          | apply OutLe.foldlR
          | exact (ih _ _).2.2.2
          | apply hk
          | apply hstLe
          | apply outLe_ite_state
          | apply outLe_ite_snd1
          | dsimp only
      · intro _
        simp only [erun]
        rw [hXT]
        repeat first
        | apply ite_snd1_out
        | dsimp only
        all_goals simp [expect_out, consume_out, advance_out]
      · intro s'
        simp only [erun]
        exact hk _ _ _ _ (outLe_refl s')
      · simp only [erun]
        exact (ih _ _).2.2.2
    | textTail =>
      refine ⟨?_, ?_, ?_, ?_⟩
      · simp only [erun]
        repeat' apply outLe_ite_st
        all_goals
          repeat first
          | exact outLe_refl _
          | apply OutLe.parseTypeR
          | apply OutLe.expectR
          | apply OutLe.consumeR
          | apply OutLe.advanceR
          | apply OutLe.emitR
          | apply OutLe.foldlR
          | exact (ih _ _).2.2.2
          | apply hk
          | apply hstLe
          | apply outLe_ite_state
          | apply outLe_ite_snd1
          | dsimp only
      · intro _
        simp only [erun]
        repeat' apply ite_st_out
        all_goals
          simp [expect_out, consume_out, advance_out, parseType_out,
            hEx, hT, hB, hA, hC, hV, hX, hXT, hCa, hR, hSu, hAsn, hAr]
      · intro s'
        simp only [erun]
        repeat' apply outLe_ite_k
        all_goals
          repeat first
          | exact outLe_refl _
          | apply OutLe.parseTypeR
          | apply OutLe.expectR
          | apply OutLe.consumeR
          | apply OutLe.advanceR
          | apply OutLe.emitR
          | apply OutLe.foldlR
          | exact (ih _ _).2.2.2
          | apply hk
          | apply hstLe
          | apply outLe_ite_state
          | apply outLe_ite_snd1
          | dsimp only
      · simp only [erun]
        repeat' apply ks_ite
        all_goals
          first
          | exact ks_mk
          | exact fun k hkm => absurd hkm (List.not_mem_nil k)
          | exact (ih _ _).2.2.2
    | callT =>
      refine ⟨?_, ?_, ?_, ?_⟩
      · simp only [erun]
        repeat' apply outLe_ite_st
        all_goals
          repeat first
          | exact outLe_refl _
          | apply OutLe.parseTypeR
          | apply OutLe.expectR
          | apply OutLe.consumeR
          | apply OutLe.advanceR
          | apply OutLe.emitR
          | apply OutLe.foldlR
          | exact (ih _ _).2.2.2
          | apply hk
          | apply hstLe
          | apply outLe_ite_state
          | apply outLe_ite_snd1
          | dsimp only
      · intro _
        simp only [erun]
        repeat' apply ite_st_out
        all_goals
          simp [expect_out, consume_out, advance_out, parseType_out,
            hEx, hT, hB, hA, hC, hV, hX, hXT, hCa, hR, hSu, hAsn, hAr]
      · intro s'
        simp only [erun]
        repeat' apply outLe_ite_k
        all_goals
          repeat first
          | exact outLe_refl _
          | apply OutLe.parseTypeR
          | apply OutLe.expectR
          | apply OutLe.consumeR
          | apply OutLe.advanceR
          | apply OutLe.emitR
          | apply OutLe.foldlR
          | exact (ih _ _).2.2.2
          | apply hk
          | apply hstLe
          | apply outLe_ite_state
          | apply outLe_ite_snd1
          | dsimp only
      · simp only [erun]
        repeat' apply ks_ite
        all_goals
          first
          | exact ks_mk
          | exact fun k hkm => absurd hkm (List.not_mem_nil k)
          | exact (ih _ _).2.2.2
    | refT =>
      refine ⟨?_, ?_, ?_, ?_⟩
      · simp only [erun]
        repeat' apply outLe_ite_st
        all_goals
          repeat first
          | exact outLe_refl _
          | apply OutLe.parseTypeR
          | apply OutLe.expectR
          | apply OutLe.consumeR
          | apply OutLe.advanceR
          | apply OutLe.emitR
          | apply OutLe.foldlR
          | exact (ih _ _).2.2.2
          | apply hk
          | apply hstLe
          | apply outLe_ite_state
          | apply outLe_ite_snd1
          | dsimp only
      · intro _
        simp only [erun]
        repeat' apply ite_st_out
        all_goals
          simp [expect_out, consume_out, advance_out, parseType_out,
            hEx, hT, hB, hA, hC, hV, hX, hXT, hCa, hR, hSu, hAsn, hAr]
      · intro s'
        simp only [erun]
        repeat' apply outLe_ite_k
        all_goals
          repeat first
          | exact outLe_refl _
          | apply OutLe.parseTypeR
          | apply OutLe.expectR
          | apply OutLe.consumeR
          | apply OutLe.advanceR
          | apply OutLe.emitR
          | apply OutLe.foldlR
          | exact (ih _ _).2.2.2
          | apply hk
          | apply hstLe
          | apply outLe_ite_state
          | apply outLe_ite_snd1
          | dsimp only
      · simp only [erun]
        repeat' apply ks_ite
        all_goals
          first
          | exact ks_mk
          | exact fun k hkm => absurd hkm (List.not_mem_nil k)
          | exact (ih _ _).2.2.2
    | subT =>
      refine ⟨?_, ?_, ?_, ?_⟩
      · simp only [erun]
        repeat' apply outLe_ite_st
        all_goals
          repeat first
          | exact outLe_refl _
          | apply OutLe.parseTypeR
          | apply OutLe.expectR
          | apply OutLe.consumeR
          | apply OutLe.advanceR
          | apply OutLe.emitR
          | apply OutLe.foldlR
          | exact (ih _ _).2.2.2
          | apply hk
          | apply hstLe
          | apply outLe_ite_state
          | apply outLe_ite_snd1
          | dsimp only
      · intro _
        simp only [erun]
        repeat' apply ite_st_out
        all_goals
          simp [expect_out, consume_out, advance_out, parseType_out,
            hEx, hT, hB, hA, hC, hV, hX, hXT, hCa, hR, hSu, hAsn, hAr]
      · intro s'
        simp only [erun]
        repeat' apply outLe_ite_k
        all_goals
          repeat first
          | exact outLe_refl _
          | apply OutLe.parseTypeR
          | apply OutLe.expectR
          | apply OutLe.consumeR
          | apply OutLe.advanceR
          | apply OutLe.emitR
          | apply OutLe.foldlR
          | exact (ih _ _).2.2.2
          | apply hk
          | apply hstLe
          | apply outLe_ite_state
          | apply outLe_ite_snd1
          | dsimp only
      · simp only [erun]
        repeat' apply ks_ite
        all_goals
          first
          | exact ks_mk
          | exact fun k hkm => absurd hkm (List.not_mem_nil k)
          | exact (ih _ _).2.2.2
    | assignT =>
      refine ⟨?_, ?_, ?_, ?_⟩
      · simp only [erun]
        repeat' apply outLe_ite_st
        all_goals
          repeat first
          | exact outLe_refl _
          | apply OutLe.parseTypeR
          | apply OutLe.expectR
          | apply OutLe.consumeR
          | apply OutLe.advanceR
          | apply OutLe.emitR
          | apply OutLe.foldlR
          | exact (ih _ _).2.2.2
          | apply hk
          | apply hstLe
          | apply outLe_ite_state
          | apply outLe_ite_snd1
          | dsimp only
      · intro _
        simp only [erun]
        repeat' apply ite_st_out
        all_goals
          simp [expect_out, consume_out, advance_out, parseType_out,
            hEx, hT, hB, hA, hC, hV, hX, hXT, hCa, hR, hSu, hAsn, hAr]
      · intro s'
        simp only [erun]
        repeat' apply outLe_ite_k
        all_goals
          repeat first
          | exact outLe_refl _
          | apply OutLe.parseTypeR
          | apply OutLe.expectR
          | apply OutLe.consumeR
          | apply OutLe.advanceR
          | apply OutLe.emitR
          | apply OutLe.foldlR
          | exact (ih _ _).2.2.2
          | apply hk
          | apply hstLe
          | apply outLe_ite_state
          | apply outLe_ite_snd1
          | dsimp only
      · simp only [erun]
        repeat' apply ks_ite
        all_goals
          first
          | exact ks_mk
          | exact fun k hkm => absurd hkm (List.not_mem_nil k)
          | exact (ih _ _).2.2.2
    | argsT =>
      refine ⟨?_, ?_, ?_, ?_⟩
      · simp only [erun]
        repeat' apply outLe_ite_st
        all_goals
          repeat first
          | exact outLe_refl _
          | apply OutLe.parseTypeR
          | apply OutLe.expectR
          | apply OutLe.consumeR
          | apply OutLe.advanceR
          | apply OutLe.emitR
          | apply OutLe.foldlR
          | exact (ih _ _).2.2.2
          | apply hk
          | apply hstLe
          | apply outLe_ite_state
          | apply outLe_ite_snd1
          | dsimp only
      · intro _
        simp only [erun]
        repeat' apply ite_st_out
        all_goals
          simp [expect_out, consume_out, advance_out, parseType_out,
            hEx, hT, hB, hA, hC, hV, hX, hXT, hCa, hR, hSu, hAsn, hAr]
      · intro s'
        simp only [erun]
        repeat' apply outLe_ite_k
        all_goals
          repeat first
          | exact outLe_refl _
          | apply OutLe.parseTypeR
          | apply OutLe.expectR
          | apply OutLe.consumeR
          | apply OutLe.advanceR
          | apply OutLe.emitR
          | apply OutLe.foldlR
          | exact (ih _ _).2.2.2
          | apply hk
          | apply hstLe
          | apply outLe_ite_state
          | apply outLe_ite_snd1
          | dsimp only
      · simp only [erun]
        repeat' apply ks_ite
        all_goals
          first
          | exact ks_mk
          | exact fun k hkm => absurd hkm (List.not_mem_nil k)
          | (intro k hkmem s'
             rcases List.mem_cons.mp hkmem with h | h
             · subst h
               exact hk _ _ _ _ (outLe_refl s')
             · exact (ih _ _).2.2.2 k h s')
    | arrT =>
      refine ⟨?_, ?_, ?_, ?_⟩
      · simp only [erun]
        repeat' apply outLe_ite_st
        all_goals
          repeat first
          | exact outLe_refl _
          | apply OutLe.parseTypeR
          | apply OutLe.expectR
          | apply OutLe.consumeR
          | apply OutLe.advanceR
          | apply OutLe.emitR
          | apply OutLe.foldlR
          | exact (ih _ _).2.2.2
          | apply hk
          | apply hstLe
          | apply outLe_ite_state
          | apply outLe_ite_snd1
          | dsimp only
      · intro h
        simp [ph1Tag] at h
      · intro s'
        simp only [erun]
        repeat' apply outLe_ite_k
        all_goals
          repeat first
          | exact outLe_refl _
          | apply OutLe.parseTypeR
          | apply OutLe.expectR
          | apply OutLe.consumeR
          | apply OutLe.advanceR
          | apply OutLe.emitR
          | apply OutLe.foldlR
          | exact (ih _ _).2.2.2
          | apply hk
          | apply hstLe
          | apply outLe_ite_state
          | apply outLe_ite_snd1
          | dsimp only
      · simp only [erun]
        repeat' apply ks_ite
        all_goals
          first
          | exact ks_mk
          | exact fun k hkm => absurd hkm (List.not_mem_nil k)
          | exact (ih _ _).2.2.2
    | dictT =>
      refine ⟨?_, ?_, ?_, ?_⟩
      · simp only [erun]
        repeat' apply outLe_ite_st
        all_goals
          repeat first
          | exact outLe_refl _
          | apply OutLe.parseTypeR
          | apply OutLe.expectR
          | apply OutLe.consumeR
          | apply OutLe.advanceR
          | apply OutLe.emitR
          | apply OutLe.foldlR
          | exact (ih _ _).2.2.2
          | apply hk
          | apply hstLe
          | apply outLe_ite_state
          | apply outLe_ite_snd1
          | dsimp only
      · intro h
        simp [ph1Tag] at h
      · intro s'
        simp only [erun]
        repeat' apply outLe_ite_k
        all_goals
          repeat first
          | exact outLe_refl _
          | apply OutLe.parseTypeR
          | apply OutLe.expectR
          | apply OutLe.consumeR
          | apply OutLe.advanceR
          | apply OutLe.emitR
          | apply OutLe.foldlR
          | exact (ih _ _).2.2.2
          | apply hk
          | apply hstLe
          | apply outLe_ite_state
          | apply outLe_ite_snd1
          | dsimp only
      · simp only [erun]
        repeat' apply ks_ite
        all_goals
          first
          | exact ks_mk
          | exact fun k hkm => absurd hkm (List.not_mem_nil k)
          | exact (ih _ _).2.2.2

end GdScript

namespace GdScript

theorem lookup_insertStr_self {α : Type} (l : List (String × α)) (k : String) (v : α) :
    lookupStr (insertStr l k v) k = some v := by
  induction l with
  | nil => simp [insertStr, lookupStr]
  | cons p rest ih =>
    rcases p with ⟨k', v'⟩
    by_cases h : k' = k
    · simp [insertStr, lookupStr, h]
    · simp [insertStr, lookupStr, h, ih]

end GdScript

namespace GdScript

theorem transpileRound_count_le (g : Registry) (f : Nat) (s : PState) :
    (transpileRound g f s).2.2 ≤ 1 := by
  simp only [transpileRound]
  split <;> simp

theorem transpileCount_le_two (g : Registry) (sn : String) (f : Nat)
    (toks : List Token) : (transpileCount g sn f toks).2 ≤ 2 := by
  simp only [transpileCount]
  split
  · exact le_trans (transpileRound_count_le g f _) (by omega)
  · have h1 := transpileRound_count_le g f (transpileProlog g sn f (initState toks))
    have h2 := transpileRound_count_le g f
      (transpileRound g f (transpileProlog g sn f (initState toks))).1
    omega

/-- Claim C1, counterexample: on a script with two unparsable top-level
lines followed by a valid `var y = 2` line, transpile emits the two panic
comments, but the second recovery episode exhausts the driver's retry
budget: the valid content following the second stuck point is left
unconsumed (`var y = 2` remains in the token stream, no declaration for `y`
is emitted) rather than fully transpiled. -/
theorem claim1_counterexample :
    (transpile gEx "Script" 40 toksTwoBad).out =
      [ Emit.define_class "Script" "Object" false,
        Emit.raw "\x0A",
        Emit.line_comment "PANIC! <42> unexpected at INT:42",
        Emit.declare_property "int" "x" false false,
        Emit.assignmentE none,
        Emit.literalInt 1,
        Emit.end_statement,
        Emit.raw "\x0A",
        Emit.raw "\x0A",
        Emit.line_comment "PANIC! <37> unexpected at INT:37",
        Emit.end_script]
    ∧ (transpile gEx "Script" 40 toksTwoBad).current = tTEXT "var"
    ∧ (transpile gEx "Script" 40 toksTwoBad).rest =
        [tTEXT "y", tPUNCT "=", tINT "2", tNL "0"] :=
  ⟨by decide, by decide, by decide⟩

/-- Claim C1, amended: the driver performs at most two recovery episodes
(the panic count of any transpile run is at most 2); on the two-bad-lines
script exactly two panic comments are emitted but the trailing valid content
stays unconsumed, and on the three-bad-lines script exactly two panic
comments are emitted, the third stuck point onward is unconsumed, and the
script is still finalized with end_script. -/
theorem claim1_amended :
    (∀ (g : Registry) (sn : String) (f : Nat) (toks : List Token),
      (transpileCount g sn f toks).2 ≤ 2)
    ∧ panicCount (transpile gEx "Script" 40 toksTwoBad).out = 2
    ∧ (transpile gEx "Script" 40 toksTwoBad).rest = [tTEXT "y", tPUNCT "=", tINT "2", tNL "0"]
    ∧ (transpile gEx "Script" 40 toksTwoBad).out.getLast? = some Emit.end_script
    ∧ panicCount (transpile gEx "Script" 40 toksThreeBad).out = 2
    ∧ (transpile gEx "Script" 40 toksThreeBad).current = tINT "99"
    ∧ (transpile gEx "Script" 40 toksThreeBad).out.getLast? = some Emit.end_script :=
  ⟨fun g sn f toks => transpileCount_le_two g sn f toks,
   by decide, by decide, by decide, by decide, by decide, by decide⟩

/-- Claim C5, counterexample: in `for i in "ab"`, the iterated
expression has type `string`, which carries no `[]` suffix, yet the loop
variable is recorded with type `string` itself, not the unknown/dynamic
type `Variant` that the claim's default clause prescribes. -/
theorem claim5_counterexample :
    lookupStr (forStmt gEx 40 (initState
      [tTEXT "i", tTEXT "in", tSTR "ab", tPUNCT ":", tNL "1",
       tTEXT "pass", tNL "0"])).2.locals "i" = some "string"
    ∧ some "string" ≠ some "Variant" :=
  ⟨by decide, by decide⟩

/-- Claim C5, amended: in `for name in <expr>` the loop variable's type is
the iterated expression's type with a trailing `[]` suffix stripped when one
is present (`int[]` yields `int`), and is the expression's type unchanged
otherwise; the variable is recorded into the flat locals table before the
body block is parsed and remains visible inside and after the loop. -/
theorem claim5_amended :
    (let r := forStmt gEx 40 { initState
        [tTEXT "i", tTEXT "in", tTEXT "arr", tPUNCT ":", tNL "1",
         tTEXT "return", tTEXT "i", tNL "0"] with locals := [("arr", "int[]")] }
     r.1 = some "int"
     ∧ lookupStr r.2.locals "i" = some "int"
     ∧ Emit.forE "i" "int" ∈ r.2.out
     ∧ Emit.variableE "i" ∈ r.2.out)
    ∧ lookupStr (forStmt gEx 40 (initState
        [tTEXT "i", tTEXT "in", tSTR "ab", tPUNCT ":", tNL "1",
         tTEXT "pass", tNL "0"])).2.locals "i" = some "string" :=
  ⟨⟨by decide, by decide, by decide, by decide⟩, by decide⟩

/-- Claim C7: the type yielded by the ternary producer's first resumption
is the type of the true branch (the producer's phase-one type equals the
first operand's boolean-chain type for every input), and on
`1 if true else "x"` the inferred type is `int` while the false branch
alone would infer `string`. -/
theorem claim7_ternary_type :
    (∀ (g : Registry) (f : Nat) (s : PState),
      (ternary g (f+1) s).ty = (boolean g f s).ty)
    ∧ (expression gEx 20 (initState
        [tINT "1", tTEXT "if", tTEXT "true", tTEXT "else", tSTR "x"])).ty = some "int"
    ∧ (expression gEx 20 (initState [tSTR "x"])).ty = some "string" :=
  ⟨fun g f s => rfl, by decide, by decide⟩

/-- Claim C6: for every expression-grammar producer (expression, ternary,
boolean, arithmetic, value, textCode, call, reference, subscription,
assignment) and every input state, the first resumption leaves the emission
trace untouched, and the second resumption only appends to the trace it is
run on. -/
theorem claim6_two_phase (g : Registry) (f : Nat) (s : PState) :
    ((expression g f s).st.out = s.out
      ∧ ∀ s', ∃ l, ((expression g f s).k s').out = s'.out ++ l)
    ∧ ((ternary g f s).st.out = s.out
      ∧ ∀ s', ∃ l, ((ternary g f s).k s').out = s'.out ++ l)
    ∧ ((boolean g f s).st.out = s.out
      ∧ ∀ s', ∃ l, ((boolean g f s).k s').out = s'.out ++ l)
    ∧ ((arithmetic g f s).st.out = s.out
      ∧ ∀ s', ∃ l, ((arithmetic g f s).k s').out = s'.out ++ l)
    ∧ ((_arithmetic g f s).st.out = s.out
      ∧ ∀ s', ∃ l, ((_arithmetic g f s).k s').out = s'.out ++ l)
    ∧ ((value g f s).st.out = s.out
      ∧ ∀ s', ∃ l, ((value g f s).k s').out = s'.out ++ l)
    ∧ ((textCode g f s).st.out = s.out
      ∧ ∀ s', ∃ l, ((textCode g f s).k s').out = s'.out ++ l)
    ∧ (∀ nm ct, (call g f nm ct s).st.out = s.out
      ∧ ∀ s', ∃ l, ((call g f nm ct s).k s').out = s'.out ++ l)
    ∧ (∀ ty, (reference g f ty s).st.out = s.out
      ∧ ∀ s', ∃ l, ((reference g f ty s).k s').out = s'.out ++ l)
    ∧ (∀ ty, (subscription g f ty s).st.out = s.out
      ∧ ∀ s', ∃ l, ((subscription g f ty s).k s').out = s'.out ++ l)
    ∧ (∀ onr, (assignment g f onr s).st.out = s.out
      ∧ ∀ s', ∃ l, ((assignment g f onr s).k s').out = s'.out ++ l) :=
  ⟨⟨(erun_phases g f .expr s).2.1 rfl, (erun_phases g f .expr s).2.2.1⟩,
   ⟨(erun_phases g f .tern s).2.1 rfl, (erun_phases g f .tern s).2.2.1⟩,
   ⟨(erun_phases g f .boolE s).2.1 rfl, (erun_phases g f .boolE s).2.2.1⟩,
   ⟨(erun_phases g f .arith s).2.1 rfl, (erun_phases g f .arith s).2.2.1⟩,
   ⟨(erun_phases g f .chain s).2.1 rfl, (erun_phases g f .chain s).2.2.1⟩,
   ⟨(erun_phases g f .val s).2.1 rfl, (erun_phases g f .val s).2.2.1⟩,
   ⟨(erun_phases g f .text s).2.1 rfl, (erun_phases g f .text s).2.2.1⟩,
   fun nm ct => ⟨(erun_phases g f (.callT nm ct) s).2.1 rfl,
     (erun_phases g f (.callT nm ct) s).2.2.1⟩,
   fun ty => ⟨(erun_phases g f (.refT ty) s).2.1 rfl,
     (erun_phases g f (.refT ty) s).2.2.1⟩,
   fun ty => ⟨(erun_phases g f (.subT ty) s).2.1 rfl,
     (erun_phases g f (.subT ty) s).2.2.1⟩,
   fun onr => ⟨(erun_phases g f (.assignT onr) s).2.1 rfl,
     (erun_phases g f (.assignT onr) s).2.2.1⟩⟩

end GdScript

namespace GdScript

/-- Continuation tokens of a binary arithmetic chain: an arithmetic
operator before each further operand. -/
def chainTail : List (Token × String) → List Token
  | [] => []
  | q :: qs => tARITH "+" :: q.1 :: chainTail qs

/-- Type paired with the last operand of the chain (the head when no
further operand follows). -/
def lastTy (p : Token × String) (rest : List (Token × String)) : String :=
  (rest.getLastD p).2

/-- A literal operand with its literal type. -/
def litOperand (q : Token × String) : Prop :=
  (q.1.type = "INT" ∧ q.2 = "int") ∨ (q.1.type = "FLOAT" ∧ q.2 = "float")

instance (q : Token × String) : Decidable (litOperand q) := by
  unfold litOperand
  infer_instance

theorem getLastD_shift {α : Type} : ∀ (qs : List α) (q p : α),
    (q :: qs).getLast?.getD p = qs.getLast?.getD q := by
  intro qs
  induction qs with
  | nil => intro q p; simp
  | cons r rs ih =>
    intro q p
    rw [List.getLast?_cons_cons, ih r p, ih r q]

/-- Claim C3, counterexample: the arithmetic chain `1 + 2.5` yields type
`float`, the type of the right operand, not the left operand's type `int`. -/
theorem claim3_counterexample :
    (value gEx 20 (initState [tINT "1", tARITH "+", tFLOAT "2.5"])).ty = some "int"
    ∧ (_arithmetic gEx 20 (initState [tINT "1", tARITH "+", tFLOAT "2.5"])).ty = some "float"
    ∧ some "float" ≠ some "int" :=
  ⟨by decide, by decide, by decide⟩

/-- Claim C3, amended: for every binary arithmetic chain of literal
operands, the type yielded by the arithmetic producer's first resumption is
the rightmost operand's type, regardless of the types of the operands to
its left (the recursion returns the innermost chain link's type). -/
theorem claim3_amended : ∀ (g : Registry) (rest : List (Token × String))
    (p : Token × String) (f : Nat) (suffix : List Token) (s : PState),
    (∀ q ∈ p :: rest, litOperand q) →
    rest.length + 2 ≤ f →
    s.current = p.1 →
    s.rest = chainTail rest ++ suffix →
    (∀ t ∈ suffix.head?, t.type ≠ "ARITHMETIC") →
    (_arithmetic g f s).ty = some (lastTy p rest) := by
  intro g rest
  induction rest with
  | nil =>
    intro p f suffix s hw hf hcur hrest hsuf
    obtain ⟨f1, rfl⟩ : ∃ f1, f = f1 + 1 + 1 := ⟨f - 2, by omega⟩
    have hlit := hw p (List.mem_cons_self _ _)
    have hadv : (advance s).current.type ≠ "ARITHMETIC" := by
      rw [advance, hrest]
      simp only [chainTail, List.nil_append]
      cases suffix with
      | nil => simp [eofToken]
      | cons t ts => exact hsuf t rfl
    rcases hlit with ⟨hty, hv⟩ | ⟨hty, hv⟩ <;>
      simp [_arithmetic, erun, lastTy, hcur, hty, hv, consume, hadv]
  | cons q qs ih =>
    intro p f suffix s hw hf hcur hrest hsuf
    obtain ⟨f1, rfl, hf1⟩ : ∃ f1, f = f1 + 1 ∧ qs.length + 2 ≤ f1 :=
      ⟨f - 1, by omega, by simp at hf; omega⟩
    obtain ⟨f2, rfl⟩ : ∃ f2, f1 = f2 + 1 := ⟨f1 - 1, by omega⟩
    have hlit := hw p (List.mem_cons_self _ _)
    have hplus : (advance s).current = tARITH "+" := by
      rw [advance, hrest]
      simp [chainTail]
    have happ := ih q (f2 + 1) suffix (advance (advance s))
      (fun r hr => hw r (List.mem_cons_of_mem _ hr))
      (by omega)
      (by rw [advance, advance, hrest]; simp [chainTail])
      (by rw [advance, advance, hrest]; simp [chainTail])
      hsuf
    rcases hlit with ⟨hty, hv⟩ | ⟨hty, hv⟩ <;>
      simp_all [_arithmetic, erun, lastTy, hcur, hty, hv, consume, hplus, tARITH,
        getLastD_shift]

/-- Claim C3, witness: the amended chain-typing theorem applied to the
concrete chain `1 + 2.5 - 3` (type `float`, the rightmost operand's type). -/
theorem claim3_amended_witness :
    (∀ q ∈ [(tINT "1", "int"), (tFLOAT "2.5", "float"), (tINT "3", "int")], litOperand q)
    ∧ ([(tFLOAT "2.5", "float"), (tINT "3", "int")] : List (Token × String)).length + 2 ≤ 9
    ∧ (initState [tINT "1", tARITH "+", tFLOAT "2.5", tARITH "+", tINT "3"]).current
        = (tINT "1", "int").1
    ∧ (initState [tINT "1", tARITH "+", tFLOAT "2.5", tARITH "+", tINT "3"]).rest
        = chainTail [(tFLOAT "2.5", "float"), (tINT "3", "int")] ++ []
    ∧ lastTy (tINT "1", "int") [(tFLOAT "2.5", "float"), (tINT "3", "int")] = "int"
    ∧ (_arithmetic gEx 9 (initState
        [tINT "1", tARITH "+", tFLOAT "2.5", tARITH "+", tINT "3"])).ty
        = some (lastTy (tINT "1", "int") [(tFLOAT "2.5", "float"), (tINT "3", "int")]) :=
  ⟨by decide, by decide, by decide, by decide, by decide,
   claim3_amended gEx [(tFLOAT "2.5", "float"), (tINT "3", "int")] (tINT "1", "int") 9 []
     (initState [tINT "1", tARITH "+", tFLOAT "2.5", tARITH "+", tINT "3"])
     (by decide) (by decide) (by decide) (by decide) (by simp)⟩

end GdScript

namespace GdScript

/-- Claim C9: the top-level expression producer's first resumption never
yields an empty type: when the inner ternary chain yields no type (or the
empty string) the producer reports `Variant`, otherwise it reports the
ternary chain's type; and when the expression is followed by an `as <Type>`
cast, the reported type is the parsed cast target type. -/
theorem claim9_expression_type :
    (∀ (g : Registry) (f : Nat) (s : PState), (expression g (f+1) s).ty ≠ none)
    ∧ (∀ (g : Registry) (f : Nat) (s : PState),
        (ternary g f s).ty = none →
        (ternary g f s).st.current.value ≠ "as" →
        (expression g (f+1) s).ty = some "Variant")
    ∧ (∀ (g : Registry) (f : Nat) (s : PState),
        (ternary g f s).st.current.value = "as" →
        (parseType (advance (ternary g f s).st)).1 ≠ "" →
        (expression g (f+1) s).ty
          = some (parseType (advance (ternary g f s).st)).1) := by
  refine ⟨?_, ?_, ?_⟩
  · intro g f s
    simp only [expression, ternary, erun]
    by_cases h : (erun g f ECall.tern s).st.current.value = "as" <;>
      simp [expect, h]
  · intro g f s hnone hnot
    simp only [ternary] at hnone hnot
    simp only [expression, erun]
    simp [expect, hnot, hnone, pyOrStr]
  · intro g f s has hne
    simp only [ternary] at has hne
    simp only [expression, ternary, erun]
    simp [expect, has, pyOrStr, hne]

/-- Claim C9, witness: the expression-typing theorem applied at concrete
inputs: a bare `pass` name yields `Variant`, an integer literal yields
`int`, and `5 as MyType` yields the cast target `MyType`. -/
theorem claim9_witness :
    (ternary gEx 20 (initState [tINT "1", tTEXT "as", tTEXT "MyType"])).st.current.value = "as"
    ∧ (parseType (advance (ternary gEx 20
        (initState [tINT "1", tTEXT "as", tTEXT "MyType"])).st)).1 ≠ ""
    ∧ (expression gEx (20+1) (initState [tINT "1", tTEXT "as", tTEXT "MyType"])).ty
        = some (parseType (advance (ternary gEx 20
            (initState [tINT "1", tTEXT "as", tTEXT "MyType"])).st)).1 :=
  ⟨by decide, by decide,
   claim9_expression_type.2.2 gEx 20 (initState [tINT "1", tTEXT "as", tTEXT "MyType"])
     (by decide) (by decide)⟩

end GdScript

namespace GdScript

set_option maxHeartbeats 1600000 in
/-- Claim C10: a script whose first token is not `extends` gets base class
`Object`: the prolog signals define_class with base `Object` and seeds the
script's class data from the registry's `Object` entry when present (empty
class data otherwise); a nested class without `extends` is likewise
signaled with base `Object`. -/
theorem claim10_default_base :
    (∀ (g : Registry) (sname : String) (rest : List Token),
      (transpileProlog g sname 9 (initState (tTEXT "var" :: rest))).base_class = "Object"
      ∧ (transpileProlog g sname 9 (initState (tTEXT "var" :: rest))).class_name = sname
      ∧ (transpileProlog g sname 9 (initState (tTEXT "var" :: rest))).out
          = [ Emit.define_class sname "Object" false]
      ∧ (∀ cd, lookupStr g "Object" = some cd →
          (transpileProlog g sname 9 (initState (tTEXT "var" :: rest))).classData
            = copyClassData cd)
      ∧ (lookupStr g "Object" = none →
          (transpileProlog g sname 9 (initState (tTEXT "var" :: rest))).classData
            = ClassData.empty))
    ∧ (∀ (g : Registry),
        (nested_class g 9 (initState [tTEXT "Inner", tPUNCT ":"])).out
          = [ Emit.define_class "Inner" "Object" false]) := by
  constructor
  · intro g sname rest
    have key : transpileProlog g sname 9 (initState (tTEXT "var" :: rest))
        = { current := tTEXT "var", rest := rest, pos := 1, level := 0, is_tool := false,
            base_class := "Object", class_name := sname,
            classData := (match lookupStr g "Object" with
              | some cd => copyClassData cd
              | none => ClassData.empty),
            locals := [],
            out := [ Emit.define_class sname "Object" false] } := by
      simp [transpileProlog, initState, endline, endlineLoop, expect, advance, consume,
        emit, addText, nlChars, tTEXT]
    rw [key]
    refine ⟨rfl, rfl, rfl, ?_, ?_⟩
    · intro cd h
      simp [h]
    · intro h
      simp [h]
  · intro g
    have key : nested_class g 9 (initState [tTEXT "Inner", tPUNCT ":"])
        = { current := eofToken, rest := [], pos := 2, level := 1, is_tool := false,
            base_class := "", class_name := "",
            classData := ClassData.empty, locals := [],
            out := [ Emit.define_class "Inner" "Object" false] } := by
      simp [nested_class, srun, member, memberAnnotLoop, declare, declareEmit,
        enum, signal, endline, endlineLoop, consumeUntil, consumeUntilAux,
        expect, consume, advance, emit, addText, nlChars, initState, tTEXT, tPUNCT,
        eofToken]
    rw [key]

set_option maxHeartbeats 1600000 in
/-- Claim C10, witness: the default-base theorem applied to a concrete
registry holding an `Object` entry and a script starting with `var`, and to
a nested class header without `extends`. -/
theorem claim10_witness :
    lookupStr gEx "Object" = some ⟨[("name", "string")], [], []⟩
    ∧ (transpileProlog gEx "MyScript" 9 (initState [tTEXT "var"])).classData
        = copyClassData ⟨[("name", "string")], [], []⟩ :=
  ⟨by decide,
   (claim10_default_base.1 gEx "MyScript" []).2.2.2.1 ⟨[("name", "string")], [], []⟩
     (by decide)⟩

end GdScript

namespace GdScript

/-- Claim C2: recording a declared member into the script's class data
leaves the registry untouched: after a member declaration the script's
working copy gains the member, while every registry entry, in particular
the base class's, still holds exactly its original class data (the copy
taken at transpile start is an independently mutable value copy). -/
theorem claim2_registry_immutable (g : Registry) (base : String) (cd : ClassData)
    (nm : String) (f : Nat) (s : PState)
    (hreg : lookupStr g base = some cd)
    (hmem : lookupStr cd.members nm = none)
    (hcd : s.classData = copyClassData cd)
    (hcur : s.current = tPUNCT ":")
    (hrest : s.rest = [tTEXT "int"]) :
    (declare g f (some nm) (memberFlags false false false) s).classData.members
      = insertStr cd.members nm "int"
    ∧ lookupStr
        (declare g f (some nm) (memberFlags false false false) s).classData.members nm
      = some "int"
    ∧ lookupStr g base = some cd
    ∧ lookupStr cd.members nm = none := by
  have h1 : (declare g f (some nm) (memberFlags false false false) s).classData.members
      = insertStr cd.members nm "int" := by
    simp [declare, expect, advance, consume, parseType, declareEmit, memberFlags,
      pyOrStr, emit, hcur, hrest, hcd, copyClassData, tPUNCT, tTEXT, eofToken]
  refine ⟨h1, ?_, hreg, hmem⟩
  rw [h1]
  exact lookup_insertStr_self cd.members nm "int"

/-- Claim C2, witness: the registry-immutability theorem applied to a
concrete registry with base class `Node`: declaring member `hp : int`
records it in the working copy and `Node`'s registry entry is unchanged. -/
theorem claim2_witness :
    lookupStr gEx "Node" = some ⟨[("position", "Vector2")],
      [("get_child", some "Node")], [("READY", "int")]⟩
    ∧ lookupStr ([("position", "Vector2")] : List (String × String)) "speed" = none
    ∧ ({ initState [tPUNCT ":", tTEXT "int"] with
          classData := copyClassData ⟨[("position", "Vector2")],
            [("get_child", some "Node")], [("READY", "int")]⟩ } : PState).classData
        = copyClassData ⟨[("position", "Vector2")],
            [("get_child", some "Node")], [("READY", "int")]⟩
    ∧ lookupStr (declare gEx 9 (some "speed") (memberFlags false false false)
        { initState [tPUNCT ":", tTEXT "int"] with
          classData := copyClassData ⟨[("position", "Vector2")],
            [("get_child", some "Node")], [("READY", "int")]⟩ }).classData.members "speed"
      = some "int" :=
  ⟨by decide, by decide, by decide,
   (claim2_registry_immutable gEx "Node"
      ⟨[("position", "Vector2")], [("get_child", some "Node")], [("READY", "int")]⟩
      "speed" 9 _ (by decide) (by decide) (by decide) (by decide) (by decide)).2.1⟩

end GdScript

namespace GdScript

/-- Claim C4, counterexample: in `self.Node.position` the name `Node`
follows a `self.` qualifier and is a known registry class name; the
resolver still applies the singleton interpretation: the access yields type
`Node` and the backend receives a singleton reference for `Node`, not a
variable reference. -/
theorem claim4_counterexample :
    (textCode gEx 20 (initState [tTEXT "self", tPUNCT ".", tTEXT "Node"])).ty = some "Node"
    ∧ (let r := textCode gEx 20
        (initState [tTEXT "self", tPUNCT ".", tTEXT "Node", tPUNCT ".", tTEXT "position"])
       (r.k r.st).out = [ Emit.thisE, Emit.singletonE "Node", Emit.referenceE "position"]) :=
  ⟨by decide, by decide⟩

/-- Claim C4, amended: a leading `self.` qualifier does not disable the
class-name interpretation. A lone `self.n` where `n` is a registry class
name (and no member, local, or global constant shadows it) resolves through
the class-name branch: it yields type `n` itself and, standing alone, is
emitted as a plain variable reference; a subsequent `.m` triggers the
singleton interpretation, emitting a singleton reference for `n` and
resolving `m` in that class's member table. -/
theorem claim4_amended (g : Registry) (f : Nat) (n m : String) (cdn : ClassData)
    (hreg : lookupStr g n = some cdn)
    (hgc : lookupStr (globalScope g).constants n = none)
    (hn : n ≠ "")
    (hmc : lookupStr cdn.constants m = none) :
    ((textCode g (f+2) (initState [tTEXT "self", tPUNCT ".", tTEXT n])).ty = some n
     ∧ (let r := textCode g (f+2) (initState [tTEXT "self", tPUNCT ".", tTEXT n])
        (r.k r.st).out = [ Emit.thisE, Emit.variableE n]))
    ∧ ((textCode g (f+3) (initState
          [tTEXT "self", tPUNCT ".", tTEXT n, tPUNCT ".", tTEXT m])).ty
        = lookupStr cdn.members m
     ∧ (let r := textCode g (f+3) (initState
          [tTEXT "self", tPUNCT ".", tTEXT n, tPUNCT ".", tTEXT m])
        (r.k r.st).out = [ Emit.thisE, Emit.singletonE n, Emit.referenceE m])) := by
  refine ⟨⟨?_, ?_⟩, ⟨?_, ?_⟩⟩ <;>
    simp [textCode, erun, expect, consume, advance, initState, pyOr, pyTruthy,
      constantsHas, constantsGet, emit, hreg, hgc, hn, hmc, tTEXT, tPUNCT, eofToken,
      ClassData.empty, lookupStr]

/-- Claim C4, witness: the amended singleton theorem applied to the
concrete registry entry `Node` and member `position`, as in the
counterexample's token stream `self.Node.position`. -/
theorem claim4_amended_witness :
    lookupStr gEx "Node" = some ⟨[("position", "Vector2")],
      [("get_child", some "Node")], [("READY", "int")]⟩
    ∧ lookupStr (globalScope gEx).constants "Node" = none
    ∧ ("Node" : String) ≠ ""
    ∧ lookupStr ([("READY", "int")] : List (String × String)) "position" = none
    ∧ (textCode gEx (9+3) (initState
        [tTEXT "self", tPUNCT ".", tTEXT "Node", tPUNCT ".", tTEXT "position"])).ty
      = lookupStr ([("position", "Vector2")] : List (String × String)) "position" :=
  ⟨by decide, by decide, by decide, by decide,
   (claim4_amended gEx 9 "Node" "position"
      ⟨[("position", "Vector2")], [("get_child", some "Node")], [("READY", "int")]⟩
      (by decide) (by decide) (by decide) (by decide)).2.1⟩

end GdScript

namespace GdScript

theorem assignInt_ty (g : Registry) (onr : Option String) (p l : Nat) (t : Bool)
    (b c : String) (cd : ClassData) (lo : List (String × String)) (ot : List Emit) :
    (assignment g 9 onr ⟨⟨"INT", "5"⟩, [], p, l, t, b, c, cd, lo, ot⟩).ty
      = some "int" := rfl

theorem assignInt_st (g : Registry) (onr : Option String) (p l : Nat) (t : Bool)
    (b c : String) (cd : ClassData) (lo : List (String × String)) (ot : List Emit) :
    (assignment g 9 onr ⟨⟨"INT", "5"⟩, [], p, l, t, b, c, cd, lo, ot⟩).st
      = ⟨⟨"EOF", "EOF"⟩, [], p, l, t, b, c, cd, lo, ot⟩ := rfl

theorem assignInt_k (g : Registry) (onr : Option String) (p l : Nat) (t : Bool)
    (b c : String) (cd : ClassData) (lo : List (String × String)) (ot : List Emit)
    (p2 l2 : Nat) (t2 : Bool) (b2 c2 : String) (cd2 : ClassData)
    (lo2 : List (String × String)) (ot2 : List Emit) (r2 : List Token) :
    (assignment g 9 onr ⟨⟨"INT", "5"⟩, [], p, l, t, b, c, cd, lo, ot⟩).k
        ⟨⟨"EOF", "EOF"⟩, r2, p2, l2, t2, b2, c2, cd2, lo2, ot2⟩
      = ⟨⟨"EOF", "EOF"⟩, r2, p2, l2, t2, b2, c2, cd2, lo2,
          (ot2 ++ [Emit.assignmentE onr]) ++ [Emit.literalInt (parseIndent "5")]⟩ := rfl

end GdScript

namespace GdScript

set_option maxHeartbeats 1600000 in
/-- Claim C8: in a declaration, when both an explicit annotation and an
initializer are present the recorded and emitted type is the annotation
(the initializer's inferred type `int` is ignored); with only an
initializer the initializer's inferred type is used; with neither the type
is `Variant`; and in each case property (class-scope) declarations are
recorded into the class data's member table and emitted with
constant/static flags, while non-property declarations are recorded into
the flat locals table. -/
theorem claim8_declare (g : Registry) (nm tyA : String) (flags : DeclFlags) :
    (tyA ≠ "" →
      (flags.property = true →
        lookupStr (declare g 9 (some nm) flags
            (initState [tPUNCT ":", tTEXT tyA, tPUNCT "=", tINT "5"])).classData.members nm
          = some tyA
        ∧ Emit.declare_property tyA nm flags.constant flags.static
            ∈ (declare g 9 (some nm) flags
                (initState [tPUNCT ":", tTEXT tyA, tPUNCT "=", tINT "5"])).out)
      ∧ (flags.property = false →
        lookupStr (declare g 9 (some nm) flags
            (initState [tPUNCT ":", tTEXT tyA, tPUNCT "=", tINT "5"])).locals nm = some tyA
        ∧ Emit.declare_variable tyA nm
            ∈ (declare g 9 (some nm) flags
                (initState [tPUNCT ":", tTEXT tyA, tPUNCT "=", tINT "5"])).out))
    ∧ ((flags.property = true →
        lookupStr (declare g 9 (some nm) flags
            (initState [tPUNCT "=", tINT "5"])).classData.members nm = some "int"
        ∧ Emit.declare_property "int" nm flags.constant flags.static
            ∈ (declare g 9 (some nm) flags (initState [tPUNCT "=", tINT "5"])).out)
      ∧ (flags.property = false →
        lookupStr (declare g 9 (some nm) flags
            (initState [tPUNCT "=", tINT "5"])).locals nm = some "int"
        ∧ Emit.declare_variable "int" nm
            ∈ (declare g 9 (some nm) flags (initState [tPUNCT "=", tINT "5"])).out))
    ∧ ((flags.property = true →
        lookupStr (declare g 9 (some nm) flags
            (initState [tTEXT "pass"])).classData.members nm = some "Variant"
        ∧ Emit.declare_property "Variant" nm flags.constant flags.static
            ∈ (declare g 9 (some nm) flags (initState [tTEXT "pass"])).out)
      ∧ (flags.property = false →
        lookupStr (declare g 9 (some nm) flags
            (initState [tTEXT "pass"])).locals nm = some "Variant"
        ∧ Emit.declare_variable "Variant" nm
            ∈ (declare g 9 (some nm) flags (initState [tTEXT "pass"])).out)) := by
  refine ⟨?_, ?_, ?_⟩
  · intro hne
    by_cases hA : tyA = "Array"
    · subst hA
      constructor <;> intro hp <;>
        simp [declare, declareEmit, parseType, expect, consume, advance, emit,
          initState, pyOr, pyOrStr, tPUNCT, tTEXT, tINT,
          assignInt_ty, assignInt_st, assignInt_k, lookup_insertStr_self, hp]
    · constructor <;> intro hp <;>
        simp [declare, declareEmit, parseType, expect, consume, advance, emit,
          initState, pyOr, pyOrStr, tPUNCT, tTEXT, tINT, hne, hA,
          assignInt_ty, assignInt_st, assignInt_k, lookup_insertStr_self, hp]
  · constructor <;> intro hp <;>
      simp [declare, declareEmit, parseType, expect, consume, advance, emit,
        initState, pyOr, pyOrStr, tPUNCT, tTEXT, tINT,
        assignInt_ty, assignInt_st, assignInt_k, lookup_insertStr_self, hp]
  · constructor <;> intro hp <;>
      simp [declare, declareEmit, expect, emit, initState, pyOrStr, tTEXT,
        lookup_insertStr_self, hp]

set_option maxHeartbeats 1600000 in
/-- Claim C8, witness: the declaration-typing theorem applied at the
concrete declaration `x : float = 5`: the recorded local type is the
annotation `float`, not the initializer's inferred type `int`. -/
theorem claim8_witness :
    ("float" : String) ≠ ""
    ∧ DeclFlags.none.property = false
    ∧ (lookupStr (declare gEx 9 (some "x") DeclFlags.none
        (initState [tPUNCT ":", tTEXT "float", tPUNCT "=", tINT "5"])).locals "x"
        = some "float"
      ∧ Emit.declare_variable "float" "x" ∈ (declare gEx 9 (some "x") DeclFlags.none
          (initState [tPUNCT ":", tTEXT "float", tPUNCT "=", tINT "5"])).out)
    ∧ some "float" ≠ some "int" :=
  ⟨by decide, by decide,
   ((claim8_declare gEx "x" "float" DeclFlags.none).1 (by decide)).2 (by decide),
   by decide⟩

end GdScript
